import Mathlib

/-!
Verification development for the 2D beam-optics core of the `lasers` repository.

The shallow embedding translates, from the TypeScript source:
  * `outline.ts` (boundary extractor `buildCellLoop`) over exact integers;
  * `math.ts` and `raycast.ts` (vector kernel, intersection library, scene
    query layer, thick-beam sampler) over the real numbers, with IEEE
    infinities of the slab method modelled by an explicit extended-number type;
  * the laser-propagation part of `sim.ts` (`stepSim`): work queue, caps,
    prism splitting, bounce dispatch and the curved-path integrator, with the
    scene query abstracted as an oracle indexed by call order (the concrete
    query mutates mid-tick state, so quantifying over oracles covers it).
-/

set_option maxHeartbeats 1600000

namespace Lasers


structure Vec2i where
  x : ℤ
  y : ℤ
deriving DecidableEq

structure EdgeI where
  a : Vec2i
  b : Vec2i
deriving DecidableEq

def hasCell (cells : List Vec2i) (x y : ℤ) : Bool :=
  cells.any (fun c => c.x == x && c.y == y)

def cellEdges (cells : List Vec2i) : List EdgeI :=
  cells.flatMap (fun c =>
    (if hasCell cells c.x (c.y - 1) then [] else [⟨⟨c.x, c.y⟩, ⟨c.x + 1, c.y⟩⟩]) ++
    (if hasCell cells (c.x + 1) c.y then [] else [⟨⟨c.x + 1, c.y⟩, ⟨c.x + 1, c.y + 1⟩⟩]) ++
    (if hasCell cells c.x (c.y + 1) then [] else [⟨⟨c.x + 1, c.y + 1⟩, ⟨c.x, c.y + 1⟩⟩]) ++
    (if hasCell cells (c.x - 1) c.y then [] else [⟨⟨c.x, c.y + 1⟩, ⟨c.x, c.y⟩⟩]))

def startEdge (edges : List EdgeI) (e0 : EdgeI) : EdgeI :=
  edges.foldl
    (fun st e => if e.a.y < st.a.y ∨ (e.a.y = st.a.y ∧ e.a.x < st.a.x) then e else st) e0

def walkLoop (edges : List EdgeI) (first : Vec2i) : ℕ → EdgeI → List Vec2i → List Vec2i
  | 0, _, acc => acc
  | fuel + 1, cur, acc =>
    if cur.b = first then acc ++ [cur.b]
    else
      match edges.find? (fun e => e.a == cur.b) with
      | none => acc ++ [cur.b]
      | some nxt => walkLoop edges first fuel nxt (acc ++ [cur.b])

def loopClose (lp : List Vec2i) : List Vec2i :=
  if (lp.headD ⟨0, 0⟩).x ≠ (lp.getLastD ⟨0, 0⟩).x ∨
      (lp.headD ⟨0, 0⟩).y ≠ (lp.getLastD ⟨0, 0⟩).y then
    lp ++ [lp.headD ⟨0, 0⟩]
  else lp

def buildCellLoop (cells : List Vec2i) : List Vec2i :=
  if (cellEdges cells).length = 0 then [⟨0, 0⟩]
  else
    loopClose
      (walkLoop (cellEdges cells)
        (startEdge (cellEdges cells) ((cellEdges cells).headD ⟨⟨0, 0⟩, ⟨0, 0⟩⟩)).a
        ((cellEdges cells).length + 8)
        (startEdge (cellEdges cells) ((cellEdges cells).headD ⟨⟨0, 0⟩, ⟨0, 0⟩⟩))
        [(startEdge (cellEdges cells) ((cellEdges cells).headD ⟨⟨0, 0⟩, ⟨0, 0⟩⟩)).a])

lemma walkLoop_succ (edges : List EdgeI) (first : Vec2i) (n : ℕ) (cur : EdgeI)
    (acc : List Vec2i) :
    walkLoop edges first (n + 1) cur acc =
      if cur.b = first then acc ++ [cur.b]
      else
        match edges.find? (fun e => e.a == cur.b) with
        | none => acc ++ [cur.b]
        | some nxt => walkLoop edges first n nxt (acc ++ [cur.b]) := rfl

lemma hasCell_single_false (x y a b : ℤ) (h : ¬(x = a ∧ y = b)) :
    hasCell [⟨x, y⟩] a b = false := by
  simp only [hasCell, List.any_cons, List.any_nil, Bool.or_false, Bool.and_eq_false_iff]
  rcases Classical.em (x = a) with hx | hx
  · right
    rw [beq_eq_false_iff_ne]
    omega
  · left
    rw [beq_eq_false_iff_ne]
    omega

lemma edges_single (x y : ℤ) :
    cellEdges [⟨x, y⟩] =
      [⟨⟨x, y⟩, ⟨x + 1, y⟩⟩, ⟨⟨x + 1, y⟩, ⟨x + 1, y + 1⟩⟩,
       ⟨⟨x + 1, y + 1⟩, ⟨x, y + 1⟩⟩, ⟨⟨x, y + 1⟩, ⟨x, y⟩⟩] := by
  rw [cellEdges, List.flatMap_cons, List.flatMap_nil]
  rw [hasCell_single_false x y x (y - 1) (by omega),
      hasCell_single_false x y (x + 1) y (by omega),
      hasCell_single_false x y x (y + 1) (by omega),
      hasCell_single_false x y (x - 1) y (by omega)]
  simp

lemma vbeq_false (a b : Vec2i) (h : ¬(a.x = b.x ∧ a.y = b.y)) : (a == b) = false := by
  rw [beq_eq_false_iff_ne]
  cases a
  cases b
  simp only [ne_eq, Vec2i.mk.injEq]
  exact h

lemma vne (a b : Vec2i) (h : ¬(a.x = b.x ∧ a.y = b.y)) : ¬ a = b := by
  cases a
  cases b
  simp only [Vec2i.mk.injEq]
  exact h

lemma vbeq_true (a b : Vec2i) (h : a.x = b.x ∧ a.y = b.y) : (a == b) = true := by
  rw [beq_iff_eq]
  cases a
  cases b
  obtain ⟨h1, h2⟩ := h
  simp_all

/-- C5: the boundary loop of a single cell `(x, y)` is exactly its four
corner vertices in clockwise order (interior on the right), closed with the
first vertex repeated last. -/
theorem buildCellLoop_single (x y : ℤ) :
    buildCellLoop [⟨x, y⟩] =
      [⟨x, y⟩, ⟨x + 1, y⟩, ⟨x + 1, y + 1⟩, ⟨x, y + 1⟩, ⟨x, y⟩] := by
  have hE := edges_single x y
  have hs : startEdge
      [⟨⟨x, y⟩, ⟨x + 1, y⟩⟩, ⟨⟨x + 1, y⟩, ⟨x + 1, y + 1⟩⟩,
       ⟨⟨x + 1, y + 1⟩, ⟨x, y + 1⟩⟩, ⟨⟨x, y + 1⟩, ⟨x, y⟩⟩]
      (List.headD
        [⟨⟨x, y⟩, ⟨x + 1, y⟩⟩, ⟨⟨x + 1, y⟩, ⟨x + 1, y + 1⟩⟩,
         ⟨⟨x + 1, y + 1⟩, ⟨x, y + 1⟩⟩, ⟨⟨x, y + 1⟩, ⟨x, y⟩⟩] ⟨⟨0, 0⟩, ⟨0, 0⟩⟩) =
      ⟨⟨x, y⟩, ⟨x + 1, y⟩⟩ := by
    simp only [List.headD, startEdge, List.foldl_cons, List.foldl_nil]
    rw [if_neg (by simp <;> omega), if_neg (by simp <;> omega), if_neg (by simp <;> omega),
      if_neg (by simp <;> omega)]
  have f1 : List.find? (fun (e : EdgeI) => e.a == (⟨x + 1, y⟩ : Vec2i))
      [⟨⟨x, y⟩, ⟨x + 1, y⟩⟩, ⟨⟨x + 1, y⟩, ⟨x + 1, y + 1⟩⟩,
       ⟨⟨x + 1, y + 1⟩, ⟨x, y + 1⟩⟩, ⟨⟨x, y + 1⟩, ⟨x, y⟩⟩] =
      some ⟨⟨x + 1, y⟩, ⟨x + 1, y + 1⟩⟩ := by
    rw [List.find?_cons_of_neg _ (by exact ne_true_of_eq_false (vbeq_false _ _ (by simp <;> omega))),
        List.find?_cons_of_pos _ (by exact vbeq_true _ _ (by simp))]
  have f2 : List.find? (fun (e : EdgeI) => e.a == (⟨x + 1, y + 1⟩ : Vec2i))
      [⟨⟨x, y⟩, ⟨x + 1, y⟩⟩, ⟨⟨x + 1, y⟩, ⟨x + 1, y + 1⟩⟩,
       ⟨⟨x + 1, y + 1⟩, ⟨x, y + 1⟩⟩, ⟨⟨x, y + 1⟩, ⟨x, y⟩⟩] =
      some ⟨⟨x + 1, y + 1⟩, ⟨x, y + 1⟩⟩ := by
    rw [List.find?_cons_of_neg _ (by exact ne_true_of_eq_false (vbeq_false _ _ (by simp <;> omega))),
        List.find?_cons_of_neg _ (by exact ne_true_of_eq_false (vbeq_false _ _ (by simp <;> omega))),
        List.find?_cons_of_pos _ (by exact vbeq_true _ _ (by simp))]
  have f3 : List.find? (fun (e : EdgeI) => e.a == (⟨x, y + 1⟩ : Vec2i))
      [⟨⟨x, y⟩, ⟨x + 1, y⟩⟩, ⟨⟨x + 1, y⟩, ⟨x + 1, y + 1⟩⟩,
       ⟨⟨x + 1, y + 1⟩, ⟨x, y + 1⟩⟩, ⟨⟨x, y + 1⟩, ⟨x, y⟩⟩] =
      some ⟨⟨x, y + 1⟩, ⟨x, y⟩⟩ := by
    rw [List.find?_cons_of_neg _ (by exact ne_true_of_eq_false (vbeq_false _ _ (by simp <;> omega))),
        List.find?_cons_of_neg _ (by exact ne_true_of_eq_false (vbeq_false _ _ (by simp <;> omega))),
        List.find?_cons_of_neg _ (by exact ne_true_of_eq_false (vbeq_false _ _ (by simp <;> omega))),
        List.find?_cons_of_pos _ (by exact vbeq_true _ _ (by simp))]
  have s1 : walkLoop
      [⟨⟨x, y⟩, ⟨x + 1, y⟩⟩, ⟨⟨x + 1, y⟩, ⟨x + 1, y + 1⟩⟩,
       ⟨⟨x + 1, y + 1⟩, ⟨x, y + 1⟩⟩, ⟨⟨x, y + 1⟩, ⟨x, y⟩⟩] ⟨x, y⟩ 12
      ⟨⟨x, y⟩, ⟨x + 1, y⟩⟩ [⟨x, y⟩] =
      walkLoop
      [⟨⟨x, y⟩, ⟨x + 1, y⟩⟩, ⟨⟨x + 1, y⟩, ⟨x + 1, y + 1⟩⟩,
       ⟨⟨x + 1, y + 1⟩, ⟨x, y + 1⟩⟩, ⟨⟨x, y + 1⟩, ⟨x, y⟩⟩] ⟨x, y⟩ 11
      ⟨⟨x + 1, y⟩, ⟨x + 1, y + 1⟩⟩ [⟨x, y⟩, ⟨x + 1, y⟩] := by
    rw [show (12 : ℕ) = 11 + 1 from rfl, walkLoop_succ, if_neg (vne _ _ (by simp <;> omega)), f1]
    rfl
  have s2 : walkLoop
      [⟨⟨x, y⟩, ⟨x + 1, y⟩⟩, ⟨⟨x + 1, y⟩, ⟨x + 1, y + 1⟩⟩,
       ⟨⟨x + 1, y + 1⟩, ⟨x, y + 1⟩⟩, ⟨⟨x, y + 1⟩, ⟨x, y⟩⟩] ⟨x, y⟩ 11
      ⟨⟨x + 1, y⟩, ⟨x + 1, y + 1⟩⟩ [⟨x, y⟩, ⟨x + 1, y⟩] =
      walkLoop
      [⟨⟨x, y⟩, ⟨x + 1, y⟩⟩, ⟨⟨x + 1, y⟩, ⟨x + 1, y + 1⟩⟩,
       ⟨⟨x + 1, y + 1⟩, ⟨x, y + 1⟩⟩, ⟨⟨x, y + 1⟩, ⟨x, y⟩⟩] ⟨x, y⟩ 10
      ⟨⟨x + 1, y + 1⟩, ⟨x, y + 1⟩⟩ [⟨x, y⟩, ⟨x + 1, y⟩, ⟨x + 1, y + 1⟩] := by
    rw [show (11 : ℕ) = 10 + 1 from rfl, walkLoop_succ, if_neg (vne _ _ (by simp <;> omega)), f2]
    rfl
  have s3 : walkLoop
      [⟨⟨x, y⟩, ⟨x + 1, y⟩⟩, ⟨⟨x + 1, y⟩, ⟨x + 1, y + 1⟩⟩,
       ⟨⟨x + 1, y + 1⟩, ⟨x, y + 1⟩⟩, ⟨⟨x, y + 1⟩, ⟨x, y⟩⟩] ⟨x, y⟩ 10
      ⟨⟨x + 1, y + 1⟩, ⟨x, y + 1⟩⟩ [⟨x, y⟩, ⟨x + 1, y⟩, ⟨x + 1, y + 1⟩] =
      walkLoop
      [⟨⟨x, y⟩, ⟨x + 1, y⟩⟩, ⟨⟨x + 1, y⟩, ⟨x + 1, y + 1⟩⟩,
       ⟨⟨x + 1, y + 1⟩, ⟨x, y + 1⟩⟩, ⟨⟨x, y + 1⟩, ⟨x, y⟩⟩] ⟨x, y⟩ 9
      ⟨⟨x, y + 1⟩, ⟨x, y⟩⟩ [⟨x, y⟩, ⟨x + 1, y⟩, ⟨x + 1, y + 1⟩, ⟨x, y + 1⟩] := by
    rw [show (10 : ℕ) = 9 + 1 from rfl, walkLoop_succ, if_neg (vne _ _ (by simp <;> omega)), f3]
    rfl
  have s4 : walkLoop
      [⟨⟨x, y⟩, ⟨x + 1, y⟩⟩, ⟨⟨x + 1, y⟩, ⟨x + 1, y + 1⟩⟩,
       ⟨⟨x + 1, y + 1⟩, ⟨x, y + 1⟩⟩, ⟨⟨x, y + 1⟩, ⟨x, y⟩⟩] ⟨x, y⟩ 9
      ⟨⟨x, y + 1⟩, ⟨x, y⟩⟩ [⟨x, y⟩, ⟨x + 1, y⟩, ⟨x + 1, y + 1⟩, ⟨x, y + 1⟩] =
      [⟨x, y⟩, ⟨x + 1, y⟩, ⟨x + 1, y + 1⟩, ⟨x, y + 1⟩, ⟨x, y⟩] := by
    rw [show (9 : ℕ) = 8 + 1 from rfl, walkLoop_succ, if_pos rfl]
    rfl
  rw [buildCellLoop, hE]
  rw [if_neg (by simp)]
  rw [hs]
  rw [show (List.length
      [(⟨⟨x, y⟩, ⟨x + 1, y⟩⟩ : EdgeI), ⟨⟨x + 1, y⟩, ⟨x + 1, y + 1⟩⟩,
       ⟨⟨x + 1, y + 1⟩, ⟨x, y + 1⟩⟩, ⟨⟨x, y + 1⟩, ⟨x, y⟩⟩] + 8) = 12 from rfl]
  rw [show ((⟨⟨x, y⟩, ⟨x + 1, y⟩⟩ : EdgeI).a) = ⟨x, y⟩ from rfl]
  rw [s1, s2, s3, s4]
  rw [loopClose, if_neg (by simp)]


noncomputable section
open Classical

/-! ## Real layer: the vector kernel (`math.ts`) -/

/-- 2D vector with real coordinates (JS numbers modelled as reals). -/
structure Vec2 where
  x : ℝ
  y : ℝ

def clamp (v lo hi : ℝ) : ℝ := max lo (min hi v)

/-- `Math.hypot` of the components. -/
def len (v : Vec2) : ℝ := Real.sqrt (v.x ^ 2 + v.y ^ 2)

def normalize (v : Vec2) : Vec2 :=
  if len v ≤ 1e-9 then ⟨0, -1⟩ else ⟨v.x / len v, v.y / len v⟩

def add (a b : Vec2) : Vec2 := ⟨a.x + b.x, a.y + b.y⟩
def sub (a b : Vec2) : Vec2 := ⟨a.x - b.x, a.y - b.y⟩
def mul (a : Vec2) (s : ℝ) : Vec2 := ⟨a.x * s, a.y * s⟩
def dot (a b : Vec2) : ℝ := a.x * b.x + a.y * b.y
def reflect (d n : Vec2) : Vec2 := ⟨d.x - 2 * dot d n * n.x, d.y - 2 * dot d n * n.y⟩
def cross (a b : Vec2) : ℝ := a.x * b.y - a.y * b.x

/-! ## IEEE-extended values for the slab method

`rayAabb` and `quickRejectRayAabb` divide by direction components after an
epsilon (resp. exact-zero) guard, substituting JS `Infinity` otherwise.  The
resulting extended values are modelled exactly: `XR.pinf`, `XR.ninf` and
`XR.nan` follow IEEE multiplication and comparison rules. -/

inductive XR where
  | nan : XR
  | ninf : XR
  | pinf : XR
  | fin : ℝ → XR

/-- IEEE product of a finite value with a slab inverse (finite or infinite). -/
def xmul (a : ℝ) : XR → XR
  | XR.fin r => XR.fin (a * r)
  | XR.pinf => if a > 0 then XR.pinf else if a < 0 then XR.ninf else XR.nan
  | XR.ninf => if a > 0 then XR.ninf else if a < 0 then XR.pinf else XR.nan
  | XR.nan => XR.nan

/-- IEEE strict less-than (false whenever a NaN is involved). -/
def xlt : XR → XR → Prop
  | XR.nan, _ => False
  | _, XR.nan => False
  | XR.ninf, XR.ninf => False
  | XR.ninf, _ => True
  | _, XR.ninf => False
  | XR.pinf, _ => False
  | XR.fin _, XR.pinf => True
  | XR.fin a, XR.fin b => a < b

/-- IEEE strict greater-than. -/
def xgt (a b : XR) : Prop := xlt b a

/-- IEEE non-strict comparison used by the quick-reject test. -/
def xge : XR → XR → Prop
  | XR.nan, _ => False
  | _, XR.nan => False
  | XR.pinf, _ => True
  | _, XR.pinf => False
  | _, XR.ninf => True
  | XR.ninf, _ => False
  | XR.fin a, XR.fin b => a ≥ b

/-- `Math.max` on extended values (NaN propagates). -/
def xmax : XR → XR → XR
  | XR.nan, _ => XR.nan
  | _, XR.nan => XR.nan
  | XR.pinf, _ => XR.pinf
  | _, XR.pinf => XR.pinf
  | XR.ninf, b => b
  | a, XR.ninf => a
  | XR.fin a, XR.fin b => XR.fin (max a b)

/-- `Math.min` on extended values (NaN propagates). -/
def xmin : XR → XR → XR
  | XR.nan, _ => XR.nan
  | _, XR.nan => XR.nan
  | XR.ninf, _ => XR.ninf
  | _, XR.ninf => XR.ninf
  | XR.pinf, b => b
  | a, XR.pinf => a
  | XR.fin a, XR.fin b => XR.fin (min a b)

/-! ## Intersection library (`raycast.ts`) -/

/-- Hit record of `rayAabb`. -/
structure RayAabbHit where
  t : ℝ
  p : Vec2
  n : Vec2

/-- `rayAabb`: slab method; an origin strictly inside yields an immediate
`t = 0` hit whose normal points back along the negated direction.  A
non-finite entry time (possible only for directions with both components
below the epsilon, which the normalizing callers never produce; IEEE would
build a NaN-coordinate hit) is modelled as no hit. -/
def rayAabb (o d : Vec2) (minX minY maxX maxY : ℝ) : Option RayAabbHit :=
  if o.x > minX ∧ o.x < maxX ∧ o.y > minY ∧ o.y < maxY then
    some ⟨0, ⟨o.x, o.y⟩, normalize ⟨-d.x, -d.y⟩⟩
  else
    let invDx : XR := if |d.x| > 1e-9 then XR.fin (1 / d.x) else XR.pinf
    let invDy : XR := if |d.y| > 1e-9 then XR.fin (1 / d.y) else XR.pinf
    let tminx := xmul (minX - o.x) invDx
    let tmaxx := xmul (maxX - o.x) invDx
    let sx : XR × XR × ℝ × ℝ :=
      if xgt tminx tmaxx then (tmaxx, tminx, 1, 0) else (tminx, tmaxx, -1, 0)
    let tminy := xmul (minY - o.y) invDy
    let tmaxy := xmul (maxY - o.y) invDy
    let sy : XR × XR × ℝ × ℝ :=
      if xgt tminy tmaxy then (tmaxy, tminy, 0, 1) else (tminy, tmaxy, 0, -1)
    if xgt sx.1 sy.2.1 ∨ xgt sy.1 sx.2.1 then none
    else
      let e : XR × ℝ × ℝ :=
        if xgt sy.1 sx.1 then (sy.1, sy.2.2.1, sy.2.2.2) else (sx.1, sx.2.2.1, sx.2.2.2)
      if xlt e.1 (XR.fin 0) then none
      else
        match e.1 with
        | XR.fin t => some ⟨t, add o (mul d t), normalize ⟨e.2.1, e.2.2⟩⟩
        | _ => none

/-- `quickRejectRayAabb`: slab existence test gating the expensive per-shape
tests; unlike `rayAabb` it guards the division by an exact zero test. -/
def quickRejectRayAabb (o d : Vec2) (minX minY maxX maxY : ℝ) : Prop :=
  let invDx : XR := if d.x ≠ 0 then XR.fin (1 / d.x) else XR.pinf
  let invDy : XR := if d.y ≠ 0 then XR.fin (1 / d.y) else XR.pinf
  let tminx := xmul (minX - o.x) invDx
  let tmaxx := xmul (maxX - o.x) invDx
  let sx : XR × XR := if xgt tminx tmaxx then (tmaxx, tminx) else (tminx, tmaxx)
  let tminy := xmul (minY - o.y) invDy
  let tmaxy := xmul (maxY - o.y) invDy
  let sy : XR × XR := if xgt tminy tmaxy then (tmaxy, tminy) else (tminy, tmaxy)
  if xgt sx.1 sy.2 ∨ xgt sy.1 sx.2 then False
  else xge (xmin sx.2 sy.2) (xmax (XR.fin 0) (xmax sx.1 sy.1))

lemma normalize_of_unit (v : Vec2) (h : dot v v = 1) : normalize v = v := by
  have hx : v.x ^ 2 + v.y ^ 2 = 1 := by
    have := h
    simp only [dot] at this
    nlinarith
  have hlen : len v = 1 := by
    rw [len, hx, Real.sqrt_one]
  rw [normalize, hlen]
  rw [if_neg (by norm_num)]
  cases v
  simp

lemma reflect_dot (d n : Vec2) (h : dot n n = 1) :
    dot (reflect d n) (reflect d n) = dot d d := by
  simp only [reflect, dot] at h ⊢
  linear_combination (4 * (d.x * n.x + d.y * n.y) ^ 2) * h

/-- C8: reflection `d - 2 (d . n) n` preserves the direction magnitude for a
unit normal, exactly over the reals. -/
theorem reflect_len (d n : Vec2) (h : len n = 1) : len (reflect d n) = len d := by
  have hnn : dot n n = 1 := by
    have h2 : Real.sqrt (n.x ^ 2 + n.y ^ 2) = 1 := h
    have h3 : n.x ^ 2 + n.y ^ 2 = 1 := by
      have := congrArg (fun t => t ^ 2) h2
      simpa [Real.sq_sqrt, add_nonneg (sq_nonneg n.x) (sq_nonneg n.y)] using this
    simp only [dot]
    nlinarith
  have := reflect_dot d n hnn
  simp only [len]
  simp only [dot] at this
  have e1 : (reflect d n).x ^ 2 + (reflect d n).y ^ 2 = d.x ^ 2 + d.y ^ 2 := by nlinarith
  rw [e1]

theorem reflect_len_witness :
    len (⟨0, 1⟩ : Vec2) = 1 ∧ len (reflect ⟨3, 4⟩ ⟨0, 1⟩) = len ⟨3, 4⟩ := by
  have h : len (⟨0, 1⟩ : Vec2) = 1 := by
    simp [len]
  exact ⟨h, reflect_len ⟨3, 4⟩ ⟨0, 1⟩ h⟩


/-- Stable insertion into an ascending run (used by the numeric sorts; a new
element goes after existing elements with a key not larger, matching the
stability of the JS sort). -/
def insertByLe (le : ℝ → ℝ → Prop) [∀ a b : ℝ, Decidable (le a b)] (a : ℝ) :
    List ℝ → List ℝ
  | [] => [a]
  | b :: bs => if le b a then b :: insertByLe le a bs else a :: b :: bs

def sortByLe (le : ℝ → ℝ → Prop) [∀ a b : ℝ, Decidable (le a b)] (l : List ℝ) : List ℝ :=
  l.foldl (fun acc x => insertByLe le x acc) []

/-- `rayCircle`: quadratic solve returning the sorted non-negative roots.
A zero direction (never produced by the normalizing callers) makes the
leading coefficient vanish; JS would divide by zero, modelled by the total
real division. -/
def rayCircle (o d c : Vec2) (r : ℝ) : List ℝ :=
  let oc := sub o c
  let a := dot d d
  let b := 2 * dot oc d
  let cc := dot oc oc - r * r
  let disc := b * b - 4 * a * cc
  if disc < 0 then []
  else
    let s := Real.sqrt disc
    let t1 := (-b - s) / (2 * a)
    let t2 := (-b + s) / (2 * a)
    sortByLe (fun u v => u ≤ v)
      ((if t1 ≥ 0 then [t1] else []) ++ (if t2 ≥ 0 then [t2] else []))

/-! ## Scene query layer -/

inductive SceneKind where
  | block : SceneKind
  | mirror : SceneKind
  | prism : SceneKind
  | blackHole : SceneKind
  | wall : SceneKind
deriving DecidableEq

/-- Scene-level hit record. -/
structure SceneHit where
  t : ℝ
  point : Vec2
  normal : Vec2
  kind : SceneKind
  id : ℤ

/-- Per-entry circle collection record of `raycastSceneCircles`. -/
structure CircleEntry where
  kind : SceneKind
  id : ℤ
  c : Vec2
  r : ℝ
  maxY : ℝ

/-- First root at or past `minT` and within `maxDist`: the source iterates the
sorted roots, skipping on `t < minT`, stopping on `t > maxDist`, and
processing the first remaining root. -/
def firstHitT (minT maxDist : ℝ) : List ℝ → Option ℝ
  | [] => none
  | t :: ts => if t < minT then firstHitT minT maxDist ts
      else if t > maxDist then none
      else some t

/-- Loop body of `raycastSceneCircles`: visibility gate, prism ignore id,
prism inside-origin skip, then nearest-root processing. -/
def considerCircle (o d : Vec2) (maxDist minT : ℝ) (ignorePrismId : Option ℤ)
    (best : Option SceneHit) (c : CircleEntry) : Option SceneHit :=
  if c.maxY < 0 then best
  else if c.kind = SceneKind.prism ∧ (∃ i, ignorePrismId = some i ∧ c.id = i) then best
  else if c.kind = SceneKind.prism ∧ dot (sub o c.c) (sub o c.c) < c.r * c.r then best
  else
    match firstHitT minT maxDist (rayCircle o d c.c c.r) with
    | none => best
    | some t =>
      let point := add o (mul d t)
      let normal := normalize (sub point c.c)
      match best with
      | none => some ⟨t, point, normal, c.kind, c.id⟩
      | some b => if t < b.t then some ⟨t, point, normal, c.kind, c.id⟩ else best

/-- `raycastSceneCircles` from `raycast.ts`. -/
def raycastSceneCircles (o dIn : Vec2) (circles : List CircleEntry)
    (maxDist minT : ℝ) (ignorePrismId : Option ℤ) : Option SceneHit :=
  circles.foldl (considerCircle o (normalize dIn) maxDist minT ignorePrismId) none

/-- Per-entry AABB collection record of `raycastSceneAabbs`. -/
structure AabbEntry where
  kind : SceneKind
  id : ℤ
  minX : ℝ
  minY : ℝ
  maxX : ℝ
  maxY : ℝ

/-- Loop body of `raycastSceneAabbs`: a gravity-well absorber
(`SceneKind.blackHole`) is tested with effective minimum travel distance 0. -/
def considerAabb (o d : Vec2) (maxDist minT : ℝ) (best : Option SceneHit)
    (a : AabbEntry) : Option SceneHit :=
  if a.maxY < 0 then best
  else if ¬ quickRejectRayAabb o d a.minX a.minY a.maxX a.maxY then best
  else
    match rayAabb o d a.minX a.minY a.maxX a.maxY with
    | none => best
    | some h =>
      let effectiveMinT := if a.kind = SceneKind.blackHole then 0 else minT
      if h.t < effectiveMinT then best
      else if h.t > maxDist then best
      else
        match best with
        | none => some ⟨h.t, h.p, h.n, a.kind, a.id⟩
        | some b => if h.t < b.t then some ⟨h.t, h.p, h.n, a.kind, a.id⟩ else best

/-- `raycastSceneAabbs` from `raycast.ts`. -/
def raycastSceneAabbs (o dIn : Vec2) (aabbs : List AabbEntry)
    (maxDist minT : ℝ) : Option SceneHit :=
  aabbs.foldl (considerAabb o (normalize dIn) maxDist minT) none

/-- Block-level hit record (`RayHit` in `raycast.ts`). -/
structure RayHit where
  t : ℝ
  point : Vec2
  normal : Vec2
  blockId : ℤ

/-- Arena bounds passed to the wall casts. -/
structure Bounds where
  w : ℝ
  h : ℝ

/-- The `consider` closure of `raycastWalls`: candidate wall hit `t` with
normal `(nx, ny)` and stable negative wall id.  The running `bestT`
(initially `Infinity`) is represented by the current best hit. -/
def wallConsider (o d : Vec2) (w h maxDist minT : ℝ) (best : Option RayHit)
    (t nx ny : ℝ) (wallId : ℤ) : Option RayHit :=
  if t < minT ∨ t > maxDist then best
  else if ∃ b, best = some b ∧ t ≥ b.t then best
  else
    let p := add o (mul d t)
    if p.x < -1e-3 ∨ p.x > w + 1e-3 ∨ p.y < -1e-3 ∨ p.y > h + 1e-3 then best
    else some ⟨t, p, normalize ⟨nx, ny⟩, wallId⟩

/-- `raycastWalls`: four half-plane tests against the viewport rectangle,
tagged with stable negative ids (left -1, right -2, top -3, bottom -4). -/
def raycastWalls (o d : Vec2) (w h maxDist minT : ℝ) : Option RayHit :=
  let b1 := if |d.x| > 1e-9 ∧ d.x < 0 then
      wallConsider o d w h maxDist minT none ((0 - o.x) / d.x) 1 0 (-1) else none
  let b2 := if |d.x| > 1e-9 ∧ d.x > 0 then
      wallConsider o d w h maxDist minT b1 ((w - o.x) / d.x) (-1) 0 (-2) else b1
  let b3 := if |d.y| > 1e-9 ∧ d.y < 0 then
      wallConsider o d w h maxDist minT b2 ((0 - o.y) / d.y) 0 1 (-3) else b2
  if |d.y| > 1e-9 ∧ d.y > 0 then
      wallConsider o d w h maxDist minT b3 ((h - o.y) / d.y) 0 (-1) (-4) else b3

/-- Scene-level wall consider (identical policy, `SceneHit` result). -/
def wallConsiderS (o d : Vec2) (w h maxDist minT : ℝ) (best : Option SceneHit)
    (t nx ny : ℝ) (wallId : ℤ) : Option SceneHit :=
  if t < minT ∨ t > maxDist then best
  else if ∃ b, best = some b ∧ t ≥ b.t then best
  else
    let p := add o (mul d t)
    if p.x < -1e-3 ∨ p.x > w + 1e-3 ∨ p.y < -1e-3 ∨ p.y > h + 1e-3 then best
    else some ⟨t, p, normalize ⟨nx, ny⟩, SceneKind.wall, wallId⟩

/-- `raycastSceneWalls` from `raycast.ts`. -/
def raycastSceneWalls (o d : Vec2) (w h maxDist minT : ℝ) : Option SceneHit :=
  let b1 := if |d.x| > 1e-9 ∧ d.x < 0 then
      wallConsiderS o d w h maxDist minT none ((0 - o.x) / d.x) 1 0 (-1) else none
  let b2 := if |d.x| > 1e-9 ∧ d.x > 0 then
      wallConsiderS o d w h maxDist minT b1 ((w - o.x) / d.x) (-1) 0 (-2) else b1
  let b3 := if |d.y| > 1e-9 ∧ d.y < 0 then
      wallConsiderS o d w h maxDist minT b2 ((0 - o.y) / d.y) 0 1 (-3) else b2
  if |d.y| > 1e-9 ∧ d.y > 0 then
      wallConsiderS o d w h maxDist minT b3 ((h - o.y) / d.y) 0 (-1) (-4) else b3

/-! ## Collision primitive builder (`buildPrimsForBlock`) -/

/-- Collision segment with outward normal. -/
structure SegPrim where
  a : Vec2
  b : Vec2
  normalOut : Vec2

/-- Fillet corner arc (`end` being reserved, the end angle is `endA`). -/
structure ArcPrim where
  c : Vec2
  r : ℝ
  start : ℝ
  endA : ℝ

/-- The loop geometry a block contributes to collision: local loop (cell
units), corner radius, cell size and world position. -/
structure BlockPoly where
  loop : List Vec2
  cornerRadius : ℝ
  cellSize : ℝ
  pos : Vec2

/-- Local pixel AABB stored on entities. -/
structure Aabb where
  minX : ℝ
  minY : ℝ
  maxX : ℝ
  maxY : ℝ

/-- `Math.atan2 y x`, via the complex argument (same range and conventions). -/
def atan2 (y x : ℝ) : ℝ := Complex.arg ⟨x, y⟩

def TAU : ℝ := 2 * Real.pi

/-- Truncation toward zero, as the JS remainder operator uses. -/
def rtrunc (x : ℝ) : ℤ := if x < 0 then -⌊-x⌋ else ⌊x⌋

/-- JS remainder `a % b` (sign of the dividend). -/
def jsMod (a b : ℝ) : ℝ := a - b * (rtrunc (a / b) : ℝ)

def normAngle (a : ℝ) : ℝ :=
  let x := jsMod a TAU
  if x < 0 then x + TAU else x

def angleInArcCCW (angle start endA : ℝ) : Prop :=
  let a := normAngle angle
  let s := normAngle start
  let e := normAngle endA
  let total := normAngle (e - s)
  let delta := normAngle (a - s)
  delta ≤ total + 1e-6

/-- `raySegment`: parametric 2D cross-product solve with epsilon-gated
denominator. -/
def raySegment (o d a b : Vec2) : Option (ℝ × Vec2) :=
  let v := sub b a
  let denom := cross d v
  if |denom| < 1e-9 then none
  else
    let ao := sub a o
    let t := cross ao v / denom
    let u := cross ao d / denom
    if t < 0 then none
    else if u < 0 ∨ u > 1 then none
    else some (t, add o (mul d t))

/-- Collision primitives derived per query from a block loop. -/
structure Prims where
  segments : List SegPrim
  arcs : List ArcPrim

/-- `buildPrimsForBlock`: shortened edges with outward normals plus fillet
arcs at convex corners.  The vertex index arithmetic `((i % m) + m) % m` is
on integers; for `m = 0` neither loop below runs, so the out-of-range default
of `pt` is never used. -/
def buildPrimsForBlock (blk : BlockPoly) : Prims :=
  let ptsLocal := blk.loop
  let n := ptsLocal.length
  let m : ℕ := max 0 (n - 1)
  let r := clamp blk.cornerRadius 0 (blk.cellSize * 0.5 - 0.6)
  let world : Vec2 → Vec2 := fun p => ⟨blk.pos.x + p.x * blk.cellSize, blk.pos.y + p.y * blk.cellSize⟩
  let pt : ℤ → Vec2 := fun i => ptsLocal.getD (((i % (m : ℤ)) + (m : ℤ)) % (m : ℤ)).toNat ⟨0, 0⟩
  let dirAt : ℤ → ℤ → Vec2 := fun i0 i1 =>
    normalize ⟨(pt i1).x - (pt i0).x, (pt i1).y - (pt i0).y⟩
  let isConvexCorner : ℤ → Prop := fun i =>
    if m < 3 then False else cross (dirAt (i - 1) i) (dirAt i (i + 1)) > 0.5
  let segments := (List.range m).filterMap (fun i =>
    let a0 := pt i
    let b0 := pt (i + 1)
    let dd := normalize ⟨b0.x - a0.x, b0.y - a0.y⟩
    let segLen := len ⟨(b0.x - a0.x) * blk.cellSize, (b0.y - a0.y) * blk.cellSize⟩
    let cutA := if isConvexCorner i then min r (segLen * 0.5 - 0.6) else 0
    let cutB := if isConvexCorner ((i + 1) % (m : ℤ)) then min r (segLen * 0.5 - 0.6) else 0
    let a := world (add a0 (mul dd (cutA / blk.cellSize)))
    let b := world (sub b0 (mul dd (cutB / blk.cellSize)))
    if len ⟨b.x - a.x, b.y - a.y⟩ > 1e-3 then
      some ⟨a, b, normalize ⟨dd.y, -dd.x⟩⟩
    else none)
  let arcs := (List.range m).filterMap (fun i =>
    if isConvexCorner i then
      let p := pt i
      let inD := dirAt (i - 1) i
      let outD := dirAt i (i + 1)
      let rp := min r (blk.cellSize * 0.5 - 0.6)
      let startPt := world (sub p (mul inD (rp / blk.cellSize)))
      let endPt := world (add p (mul outD (rp / blk.cellSize)))
      let center := world (add (sub p (mul inD (rp / blk.cellSize))) (mul outD (rp / blk.cellSize)))
      some ⟨center, rp, atan2 (startPt.y - center.y) (startPt.x - center.x),
        atan2 (endPt.y - center.y) (endPt.x - center.x)⟩
    else none)
  ⟨segments, arcs⟩

/-- Destructible block entity fields read by the raycasts. -/
structure BlockEntity where
  id : ℤ
  poly : BlockPoly
  localAabb : Aabb

/-- Arc-root loop of `raycastScenePolys`: skip roots before `minT`, stop past
`maxDist`, and accept the first root whose angle lies on the arc (this
scene-level loop breaks after the first accepted root). -/
def arcFirst (o d : Vec2) (arc : ArcPrim) (maxDist minT : ℝ) : List ℝ → Option (ℝ × Vec2)
  | [] => none
  | t :: ts =>
    if t < minT then arcFirst o d arc maxDist minT ts
    else if t > maxDist then none
    else
      let p := add o (mul d t)
      let a := atan2 (p.y - arc.c.y) (p.x - arc.c.x)
      if ¬ angleInArcCCW a arc.start arc.endA then arcFirst o d arc maxDist minT ts
      else some (t, p)

/-- Arc-root loop of `raycastBlocks`: roots before `minT` are skipped, the
loop stops past `maxDist`, angle-rejected roots are skipped, and every
remaining root may update the running best (this loop has no early accept
break, unlike the scene-level one). -/
def arcScanAll (o d : Vec2) (arc : ArcPrim) (maxDist minT : ℝ) (bid : ℤ) :
    List ℝ → Option RayHit → Option RayHit
  | [], acc => acc
  | t :: ts, acc =>
    if t < minT then arcScanAll o d arc maxDist minT bid ts acc
    else if t > maxDist then acc
    else
      let p := add o (mul d t)
      let a := atan2 (p.y - arc.c.y) (p.x - arc.c.x)
      if ¬ angleInArcCCW a arc.start arc.endA then arcScanAll o d arc maxDist minT bid ts acc
      else
        arcScanAll o d arc maxDist minT bid ts
          (match acc with
           | none => some ⟨t, p, normalize (sub p arc.c), bid⟩
           | some bb => if t < bb.t then some ⟨t, p, normalize (sub p arc.c), bid⟩ else acc)

/-- Per-block body of `raycastBlocks`: AABB visibility gate and quick-reject,
then all segment primitives, then the arc primitives. -/
def considerBlock (o d : Vec2) (maxDist minT : ℝ) (best : Option RayHit)
    (b : BlockEntity) : Option RayHit :=
  let minX := b.poly.pos.x + b.localAabb.minX
  let minY := b.poly.pos.y + b.localAabb.minY
  let maxX := b.poly.pos.x + b.localAabb.maxX
  let maxY := b.poly.pos.y + b.localAabb.maxY
  if maxY < 0 then best
  else if ¬ quickRejectRayAabb o d minX minY maxX maxY then best
  else
    let prims := buildPrimsForBlock b.poly
    let best1 := prims.segments.foldl (fun acc s =>
      match raySegment o d s.a s.b with
      | none => acc
      | some (t, p) =>
        if t < minT ∨ t > maxDist then acc
        else
          match acc with
          | none => some ⟨t, p, s.normalOut, b.id⟩
          | some bb => if t < bb.t then some ⟨t, p, s.normalOut, b.id⟩ else acc) best
    prims.arcs.foldl (fun acc arc =>
      arcScanAll o d arc maxDist minT b.id (rayCircle o d arc.c arc.r) acc) best1

/-- `raycastBlocks` from `raycast.ts`. -/
def raycastBlocks (o dIn : Vec2) (blocks : List BlockEntity) (maxDist minT : ℝ) :
    Option RayHit :=
  blocks.foldl (considerBlock o (normalize dIn) maxDist minT) none

/-- Nearest-hit combination used by the thick casts (block wins ties). -/
def pickNearest (hb hw : Option RayHit) : Option RayHit :=
  match hb, hw with
  | some b, some w => if b.t ≤ w.t then some b else some w
  | some b, none => some b
  | none, some w => some w
  | none, none => none

/-- `raycastBlocksThick` from `raycast.ts`: width at or below the epsilon
short-circuits to a plain `raycastBlocks` query; otherwise three parallel
rays (center and both offsets) are combined with the wall cast. -/
def raycastBlocksThick (o dIn : Vec2) (blocks : List BlockEntity)
    (maxDist radius minT : ℝ) (bounds : Option Bounds) : Option RayHit :=
  if radius ≤ 0.01 then raycastBlocks o dIn blocks maxDist minT
  else
    let d := normalize dIn
    let perp := normalize ⟨-d.y, d.x⟩
    [(0 : ℝ), -radius, radius].foldl (fun best off =>
      let oo := if off = 0 then o else add o (mul perp off)
      let hitBlock := raycastBlocks oo d blocks maxDist minT
      let hitWall := match bounds with
        | some bd => raycastWalls oo d bd.w bd.h maxDist minT
        | none => none
      match pickNearest hitBlock hitWall with
      | none => best
      | some h =>
        match best with
        | none => some h
        | some b => if h.t < b.t then some h else best) none

/-- Modelled from the spec: the claimed short-circuit behaviour of the
thick-beam sampler at small widths — "the same nearest hit that one
zero-offset cast against the given blocks and, when bounds are supplied, the
arena walls would return". -/
def centerlineQuerySpec (o dIn : Vec2) (blocks : List BlockEntity)
    (maxDist minT : ℝ) (bounds : Option Bounds) : Option RayHit :=
  pickNearest (raycastBlocks o dIn blocks maxDist minT)
    (match bounds with
     | some bd => raycastWalls o (normalize dIn) bd.w bd.h maxDist minT
     | none => none)

/-- Static board features supplied by the host. -/
inductive BoardFeature where
  | mirror (id : ℤ) (poly : BlockPoly) (localAabb : Aabb) : BoardFeature
  | prism (id : ℤ) (pos : Vec2) (cellSize r : ℝ) (exitsDeg : List ℚ)
      (localAabb : Aabb) : BoardFeature
  | blackHole (id : ℤ) (pos : Vec2) (cellSize rCore rInfluence : ℝ)
      (localAabb : Aabb) : BoardFeature

/-- Poly collection entry of `raycastSceneThick` / `raycastScenePolys`. -/
structure PolyEntry where
  kind : SceneKind
  id : ℤ
  poly : BlockPoly
  localAabb : Aabb

/-- Per-poly body of `raycastScenePolys`. -/
def considerPoly (o d : Vec2) (maxDist minT : ℝ) (best : Option SceneHit)
    (p : PolyEntry) : Option SceneHit :=
  let minX := p.poly.pos.x + p.localAabb.minX
  let minY := p.poly.pos.y + p.localAabb.minY
  let maxX := p.poly.pos.x + p.localAabb.maxX
  let maxY := p.poly.pos.y + p.localAabb.maxY
  if maxY < 0 then best
  else if ¬ quickRejectRayAabb o d minX minY maxX maxY then best
  else
    let prims := buildPrimsForBlock p.poly
    let best1 := prims.segments.foldl (fun acc s =>
      match raySegment o d s.a s.b with
      | none => acc
      | some (t, pp) =>
        if t < minT ∨ t > maxDist then acc
        else
          match acc with
          | none => some ⟨t, pp, s.normalOut, p.kind, p.id⟩
          | some bb => if t < bb.t then some ⟨t, pp, s.normalOut, p.kind, p.id⟩ else acc) best
    prims.arcs.foldl (fun acc arc =>
      match arcFirst o d arc maxDist minT (rayCircle o d arc.c arc.r) with
      | none => acc
      | some (t, pp) =>
        let normal := normalize (sub pp arc.c)
        match acc with
        | none => some ⟨t, pp, normal, p.kind, p.id⟩
        | some bb => if t < bb.t then some ⟨t, pp, normal, p.kind, p.id⟩ else acc) best1

/-- `raycastScenePolys` from `raycast.ts`. -/
def raycastScenePolys (o dIn : Vec2) (polys : List PolyEntry) (maxDist minT : ℝ) :
    Option SceneHit :=
  polys.foldl (considerPoly o (normalize dIn) maxDist minT) none

/-- Nearest-of combination for scene hits (first argument wins ties, as the
`hitObj.t <= hitWall.t` comparison does). -/
def pickNearestS (ha hb : Option SceneHit) : Option SceneHit :=
  match ha, hb with
  | some a, some b => if a.t ≤ b.t then some a else some b
  | some a, none => some a
  | none, some b => some b
  | none, none => none

/-- `raycastSceneThick` from `raycast.ts`: builds the poly, circle and AABB
collections from blocks and features, collides gravity-well absorbers with
the center ray only, and keeps the nearest hit across the thick-beam
offsets. -/
def raycastSceneThick (o dIn : Vec2) (blocks : List BlockEntity)
    (features : List BoardFeature) (maxDist radius minT : ℝ)
    (bounds : Option Bounds) (ignorePrismId : Option ℤ) : Option SceneHit :=
  let d := normalize dIn
  let perp := normalize ⟨-d.y, d.x⟩
  let polys : List PolyEntry :=
    blocks.map (fun b => ⟨SceneKind.block, b.id, b.poly, b.localAabb⟩) ++
      features.filterMap (fun f =>
        match f with
        | BoardFeature.mirror i poly aabb => some ⟨SceneKind.mirror, i, poly, aabb⟩
        | _ => none)
  let circles : List CircleEntry :=
    features.filterMap (fun f =>
      match f with
      | BoardFeature.prism i pos cellSize r _ aabb =>
        if ∃ ig, ignorePrismId = some ig ∧ i = ig then none
        else some ⟨SceneKind.prism, i,
          ⟨pos.x + cellSize * 0.5, pos.y + cellSize * 0.5⟩, r, pos.y + aabb.maxY⟩
      | _ => none)
  let aabbs : List AabbEntry :=
    features.filterMap (fun f =>
      match f with
      | BoardFeature.blackHole i pos cellSize _ _ _ =>
        some ⟨SceneKind.blackHole, i, pos.x, pos.y, pos.x + cellSize, pos.y + cellSize⟩
      | _ => none)
  let offsets : List ℝ := if radius ≤ 0.01 then [0] else [0, -radius, radius]
  let hitAabbCenter := raycastSceneAabbs o d aabbs maxDist minT
  offsets.foldl (fun best off =>
    let oo := if off = 0 then o else add o (mul perp off)
    let hitPoly := raycastScenePolys oo d polys maxDist minT
    let hitCircle := raycastSceneCircles oo d circles maxDist minT ignorePrismId
    let hitWall := match bounds with
      | some bd => raycastSceneWalls oo d bd.w bd.h maxDist minT
      | none => none
    match pickNearestS (pickNearestS (pickNearestS hitPoly hitCircle) hitAabbCenter) hitWall with
    | none => best
    | some h =>
      match best with
      | none => some h
      | some b => if h.t < b.t then some h else best) none

/-- C6: a ray whose origin lies strictly inside an axis-aligned box gets an
immediate `t = 0` hit at the origin whose normal points back along the
negated ray direction. -/
theorem rayAabb_inside (o d : Vec2) (minX minY maxX maxY : ℝ)
    (h1 : minX < o.x) (h2 : o.x < maxX) (h3 : minY < o.y) (h4 : o.y < maxY) :
    rayAabb o d minX minY maxX maxY = some ⟨0, ⟨o.x, o.y⟩, normalize ⟨-d.x, -d.y⟩⟩ := by
  rw [rayAabb, if_pos ⟨h1, h2, h3, h4⟩]

theorem rayAabb_inside_witness :
    rayAabb ⟨5, 5⟩ ⟨0, -1⟩ 0 0 10 10 = some ⟨0, ⟨5, 5⟩, normalize ⟨0, 1⟩⟩ := by
  have := rayAabb_inside ⟨5, 5⟩ ⟨0, -1⟩ 0 0 10 10 (by norm_num) (by norm_num)
    (by norm_num) (by norm_num)
  simpa using this

lemma considerCircle_skip (o d : Vec2) (maxDist minT : ℝ) (ign : Option ℤ)
    (best : Option SceneHit) (c : CircleEntry)
    (hk : c.kind = SceneKind.prism)
    (hin : dot (sub o c.c) (sub o c.c) < c.r * c.r) :
    considerCircle o d maxDist minT ign best c = best := by
  rw [considerCircle]
  by_cases h1 : c.maxY < 0
  · rw [if_pos h1]
  · rw [if_neg h1]
    by_cases h2 : c.kind = SceneKind.prism ∧ (∃ i, ign = some i ∧ c.id = i)
    · rw [if_pos h2]
    · rw [if_neg h2, if_pos ⟨hk, hin⟩]

lemma considerCircle_origin (o d : Vec2) (maxDist minT : ℝ) (ign : Option ℤ)
    (best : Option SceneHit) (c : CircleEntry) (h : SceneHit)
    (he : considerCircle o d maxDist minT ign best c = some h) :
    best = some h ∨ (h.kind = c.kind ∧ h.id = c.id) := by
  rw [considerCircle] at he
  split_ifs at he
  · exact Or.inl he
  · exact Or.inl he
  · exact Or.inl he
  · revert he
    rcases firstHitT minT maxDist (rayCircle o d c.c c.r) with _ | t
    · exact fun he => Or.inl he
    · simp only []
      rcases best with _ | b
      · dsimp only []
        intro he
        right
        rw [← Option.some_inj] at he
        cases he
        exact ⟨rfl, rfl⟩
      · dsimp only []
        by_cases hlt : t < b.t
        · rw [if_pos hlt]
          intro he
          right
          cases Option.some_inj.mp he
          exact ⟨rfl, rfl⟩
        · rw [if_neg hlt]
          exact fun he => Or.inl he

lemma circles_fold_origin (o d : Vec2) (maxDist minT : ℝ) (ign : Option ℤ) :
    ∀ (l : List CircleEntry) (b0 : Option SceneHit) (h : SceneHit),
      l.foldl (considerCircle o d maxDist minT ign) b0 = some h →
      b0 = some h ∨ ∃ e ∈ l, h.kind = e.kind ∧ h.id = e.id := by
  intro l
  induction l with
  | nil => exact fun b0 h he => Or.inl he
  | cons e es ih =>
    intro b0 h he
    rw [List.foldl_cons] at he
    rcases ih _ h he with h1 | ⟨e2, he2, hk⟩
    · rcases considerCircle_origin o d maxDist minT ign b0 e h h1 with h2 | h2
      · exact Or.inl h2
      · exact Or.inr ⟨e, List.mem_cons_self e es, h2⟩
    · exact Or.inr ⟨e2, List.mem_cons_of_mem e he2, hk⟩

/-- C10 (amended): a ray whose origin lies strictly inside a prism collision
circle can never hit that prism in the circle scene query — the entry
contributes nothing (removing it leaves the result unchanged), and when no
other circle entry carries that prism id, the result is never a prism hit
with that id, whatever `ignorePrismId` is passed.  This inside-origin skip
is per cast: each of `raycastSceneThick`'s sample rays tests containment
from its own (possibly offset) origin, so for radius > 0.01 the thick
sampler can still hit the prism the beam's true origin lies inside — see
the counterexample. -/
theorem raycastSceneCircles_inside_prism (o dIn : Vec2) (l1 l2 : List CircleEntry)
    (c : CircleEntry) (maxDist minT : ℝ) (ign : Option ℤ)
    (hk : c.kind = SceneKind.prism)
    (hin : dot (sub o c.c) (sub o c.c) < c.r * c.r) :
    raycastSceneCircles o dIn (l1 ++ c :: l2) maxDist minT ign =
      raycastSceneCircles o dIn (l1 ++ l2) maxDist minT ign ∧
    (∀ h : SceneHit, (∀ e ∈ l1 ++ l2, ¬(e.kind = SceneKind.prism ∧ e.id = c.id)) →
      raycastSceneCircles o dIn (l1 ++ c :: l2) maxDist minT ign = some h →
      ¬(h.kind = SceneKind.prism ∧ h.id = c.id)) := by
  have hmain : raycastSceneCircles o dIn (l1 ++ c :: l2) maxDist minT ign =
      raycastSceneCircles o dIn (l1 ++ l2) maxDist minT ign := by
    rw [raycastSceneCircles, raycastSceneCircles, List.foldl_append, List.foldl_append,
      List.foldl_cons,
      considerCircle_skip o (normalize dIn) maxDist minT ign _ c hk hin]
  refine ⟨hmain, ?_⟩
  intro h huniq he hcontra
  rw [hmain, raycastSceneCircles] at he
  rcases circles_fold_origin o (normalize dIn) maxDist minT ign (l1 ++ l2) none h he with
    h1 | ⟨e, hmem, hke, hide⟩
  · cases h1
  · exact huniq e hmem ⟨hke ▸ hcontra.1, hide ▸ hcontra.2⟩

theorem raycastSceneCircles_inside_prism_witness :
    raycastSceneCircles ⟨1, 0⟩ ⟨0, -1⟩ [⟨SceneKind.prism, 7, ⟨0, 0⟩, 2, 5⟩] 100 0 none =
      raycastSceneCircles ⟨1, 0⟩ ⟨0, -1⟩ [] 100 0 none := by
  have := raycastSceneCircles_inside_prism ⟨1, 0⟩ ⟨0, -1⟩ [] []
    ⟨SceneKind.prism, 7, ⟨0, 0⟩, 2, 5⟩ 100 0 none rfl (by norm_num [dot, sub])
  simpa using this.1

/-- C9: in the scene AABB query a gravity-well absorber entry is tested with
effective minimum travel distance 0, so a hit with `0 ≤ t < minT` is still
accepted for a `blackHole` entry, while such a hit is rejected for an entry
of any other kind. -/
theorem raycastSceneAabbs_blackHole_minT (o dIn : Vec2) (a : AabbEntry)
    (maxDist minT : ℝ) (hr : RayAabbHit)
    (hray : rayAabb o (normalize dIn) a.minX a.minY a.maxX a.maxY = some hr)
    (ht0 : 0 ≤ hr.t) (htm : hr.t < minT) (htd : hr.t ≤ maxDist)
    (hvis : ¬ a.maxY < 0)
    (hqr : quickRejectRayAabb o (normalize dIn) a.minX a.minY a.maxX a.maxY) :
    raycastSceneAabbs o dIn [a] maxDist minT =
      if a.kind = SceneKind.blackHole then some ⟨hr.t, hr.p, hr.n, a.kind, a.id⟩
      else none := by
  rw [raycastSceneAabbs, List.foldl_cons, List.foldl_nil, considerAabb, if_neg hvis,
    if_neg (by rw [not_not]; exact hqr), hray]
  by_cases hbh : a.kind = SceneKind.blackHole
  · rw [if_pos hbh]
    simp only [hbh, if_pos rfl]
    rw [if_neg (by exact not_lt.mpr ht0), if_neg (by exact not_lt.mpr htd)]
    simp
  · rw [if_neg hbh]
    simp only [if_neg hbh]
    rw [if_pos htm]

lemma normalize_down : normalize (⟨0, -1⟩ : Vec2) = ⟨0, -1⟩ :=
  normalize_of_unit _ (by norm_num [dot])

theorem raycastSceneAabbs_blackHole_minT_witness :
    raycastSceneAabbs ⟨5, 5⟩ ⟨0, -1⟩ [⟨SceneKind.blackHole, 3, 0, 0, 10, 10⟩] 100 1 =
      some ⟨0, ⟨5, 5⟩, normalize ⟨0, 1⟩, SceneKind.blackHole, 3⟩ := by
  have hray : rayAabb (⟨5, 5⟩ : Vec2) (normalize ⟨0, -1⟩) 0 0 10 10 =
      some ⟨0, ⟨5, 5⟩, normalize ⟨0, 1⟩⟩ := by
    rw [normalize_down, rayAabb, if_pos (by norm_num)]
    norm_num
  have hqr : quickRejectRayAabb (⟨5, 5⟩ : Vec2) (normalize ⟨0, -1⟩) 0 0 10 10 := by
    rw [normalize_down, quickRejectRayAabb]
    norm_num [xmul, xgt, xlt, xge, xmax, xmin]
  have := raycastSceneAabbs_blackHole_minT ⟨5, 5⟩ ⟨0, -1⟩
    ⟨SceneKind.blackHole, 3, 0, 0, 10, 10⟩ 100 1 ⟨0, ⟨5, 5⟩, normalize ⟨0, 1⟩⟩
    hray (by norm_num) (by norm_num) (by norm_num) (by norm_num) hqr
  simpa using this

/-- C7 (amended): at beam radius at or below the 0.01 epsilon, the thick
block sampler short-circuits to the plain centerline `raycastBlocks` query
over the blocks alone; the supplied bounds (arena walls) are not consulted on
this path. -/
theorem raycastBlocksThick_small_radius (o dIn : Vec2) (blocks : List BlockEntity)
    (maxDist radius minT : ℝ) (bounds : Option Bounds) (hr : radius ≤ 0.01) :
    raycastBlocksThick o dIn blocks maxDist radius minT bounds =
      raycastBlocks o dIn blocks maxDist minT := by
  rw [raycastBlocksThick, if_pos hr]

theorem raycastBlocksThick_small_radius_witness :
    raycastBlocksThick ⟨5, 5⟩ ⟨0, -1⟩ [] 100 0 0 (some ⟨10, 10⟩) =
      raycastBlocks ⟨5, 5⟩ ⟨0, -1⟩ [] 100 0 :=
  raycastBlocksThick_small_radius ⟨5, 5⟩ ⟨0, -1⟩ [] 100 0 0 (some ⟨10, 10⟩) (by norm_num)

/-- C7 (counterexample): with supplied bounds, an empty block list and radius
exactly at the epsilon, the short-circuit returns no hit, while the
spec-described single centerline query (blocks and, with bounds supplied, the
arena walls) returns the top-wall hit — so the two disagree. -/
theorem raycastBlocksThick_ignores_walls :
    raycastBlocksThick ⟨5, 5⟩ ⟨0, -1⟩ [] 100 (1 / 100) 0 (some ⟨10, 10⟩) = none ∧
    centerlineQuerySpec ⟨5, 5⟩ ⟨0, -1⟩ [] 100 0 (some ⟨10, 10⟩) =
      some ⟨5, ⟨5, 0⟩, normalize ⟨0, 1⟩, -3⟩ := by
  constructor
  · rw [raycastBlocksThick, if_pos (by norm_num), raycastBlocks]
    rfl
  · rw [centerlineQuerySpec, normalize_down]
    have hwalls : raycastWalls (⟨5, 5⟩ : Vec2) ⟨0, -1⟩ 10 10 100 0 =
        some ⟨5, ⟨5, 0⟩, normalize ⟨0, 1⟩, -3⟩ := by
      simp only [raycastWalls, wallConsider, add, mul]
      norm_num
      exact fun x hx => Option.noConfusion hx
    rw [hwalls]
    rw [show raycastBlocks (⟨5, 5⟩ : Vec2) ⟨0, -1⟩ [] 100 0 = none from rfl]
    rfl

end

/-- C2 (counterexample): on the empty cell set the boundary extractor does
fabricate a point — it returns the single-vertex loop `[(0, 0)]` rather than
signalling a degenerate shape. -/
theorem buildCellLoop_empty_fabricates_point :
    buildCellLoop [] = [⟨0, 0⟩] := by decide

/-- C2 (amended): on the empty cell set `buildCellLoop` returns the
fabricated one-point loop `[(0, 0)]`; downstream, that loop produces zero
collision primitives (no segments, no arcs), so the body is excluded from
collision and the tick does not crash. -/
theorem buildCellLoop_empty_degenerate :
    buildCellLoop [] = [⟨0, 0⟩] ∧
    ∀ (cr cs : ℝ) (pos : Vec2),
      buildPrimsForBlock
        ⟨(buildCellLoop []).map (fun p => (⟨(p.x : ℝ), (p.y : ℝ)⟩ : Vec2)), cr, cs, pos⟩ =
      ⟨[], []⟩ := by
  refine ⟨by decide, ?_⟩
  intro cr cs pos
  rw [show buildCellLoop [] = [⟨0, 0⟩] from by decide]
  rw [show ([(⟨0, 0⟩ : Vec2i)].map (fun p => (⟨(p.x : ℝ), (p.y : ℝ)⟩ : Vec2))) =
    [(⟨0, 0⟩ : Vec2)] from by norm_num]
  rw [buildPrimsForBlock]
  norm_num

noncomputable section
open Classical

/-! ## Beam propagation engine (the laser part of `stepSim` in `sim.ts`)

The scene query `raycastSceneThick` mutates nothing itself, but the damage
callback invoked on block hits removes destroyed blocks and can spawn prisms
mid-tick, so later queries see a different scene.  The engine is therefore
embedded against a `SceneOracle` indexed by call order; every theorem below
holds for all oracles, hence for the concrete query sequence. -/

def EPS : ℝ := 1.0
def MAX_RAYS : ℕ := 24
def MAX_SEGMENTS : ℕ := 180
def MAX_CURVE_STEPS : ℕ := 260

/-- The fields of the stat bundle read by the propagation engine. -/
structure RunStats where
  dps : ℝ
  beamWidth : ℝ
  maxBounces : ℤ
  bounceFalloff : ℝ
  splitterChance : ℝ
  noWallPenalty : Bool

/-- The `rotate` helper local to `stepSim`. -/
def rotate (v : Vec2) (rad : ℝ) : Vec2 :=
  ⟨v.x * Real.cos rad - v.y * Real.sin rad, v.x * Real.sin rad + v.y * Real.cos rad⟩

/-- Black-hole data precomputed per tick (`holeInfos`). -/
structure HoleInfo where
  id : ℤ
  c : Vec2
  rCore : ℝ
  rInf : ℝ
  maxY : ℝ

def holeInfosOf (features : List BoardFeature) : List HoleInfo :=
  features.filterMap (fun f =>
    match f with
    | BoardFeature.blackHole i pos cellSize rCore rInfluence aabb =>
      some ⟨i, ⟨pos.x + cellSize * 0.5, pos.y + cellSize * 0.5⟩, rCore, rInfluence,
        pos.y + aabb.maxY⟩
    | _ => none)

/-- `rayCircleEnterT` local to `stepSim`: distance to entering a circle, 0
when already inside. -/
def rayCircleEnterT (o d c : Vec2) (r : ℝ) : Option ℝ :=
  let oc := sub o c
  if dot oc oc < r * r then some 0
  else
    let a := dot d d
    let b := 2 * dot oc d
    let cc := dot oc oc - r * r
    let disc := b * b - 4 * a * cc
    if disc < 0 then none
    else
      let sdisc := Real.sqrt disc
      let t1 := (-b - sdisc) / (2 * a)
      let t2 := (-b + sdisc) / (2 * a)
      if t1 ≥ 0 then some t1 else if t2 ≥ 0 then some t2 else none

/-- The influence-entry pre-pass of the tracing loop: nearest admissible
entry distance into any visible hole influence circle across the thick-beam
offsets. -/
def computeEnterT (holes : List HoleInfo) (beamRadius maxDist : ℝ) (o d : Vec2)
    (minT : ℝ) : Option ℝ :=
  let perp := normalize ⟨-d.y, d.x⟩
  let offsets : List ℝ := if beamRadius ≤ 0.01 then [0] else [0, -beamRadius, beamRadius]
  holes.foldl (fun (acc : Option ℝ) (h : HoleInfo) =>
    if h.maxY < 0 then acc
    else offsets.foldl (fun (acc2 : Option ℝ) (off : ℝ) =>
      let oo := if off = 0 then o else add o (mul perp off)
      match rayCircleEnterT oo d h.c h.rInf with
      | none => acc2
      | some tEnter =>
        if tEnter < minT then acc2
        else if tEnter > maxDist then acc2
        else
          match acc2 with
          | none => some tEnter
          | some cur => if tEnter < cur then some tEnter else acc2) acc) none

/-- Beam work item. -/
structure RayWork where
  o : Vec2
  d : Vec2
  intensity : ℝ
  bouncesLeft : ℤ
  minT : ℝ
  ignorePrismId : ℤ

/-- Emitted beam segment. -/
structure Seg where
  a : Vec2
  b : Vec2
  intensity : ℝ

/-- `enqueueRay`: refuses to enqueue once the per-tick work-item cap cannot
accommodate the item, without raising an error. -/
def enqueueRay (raysProcessed : ℕ) (queue : List RayWork) (w : RayWork) :
    Bool × List RayWork :=
  if raysProcessed + queue.length ≥ MAX_RAYS then (false, queue)
  else (true, queue ++ [w])

/-- `tryAddSeg`: refuses to emit past the segment cap, without raising an
error. -/
def tryAddSeg (segs : List Seg) (a b : Vec2) (i : ℝ) : Bool × List Seg :=
  if segs.length ≥ MAX_SEGMENTS then (false, segs)
  else (true, segs ++ [⟨a, b, i⟩])

/-- The allowed prism exit-angle offsets (degrees). -/
def allowedExits : List ℚ := [0, 15, -15, 45, -45, 90, -90]

/-- First-occurrence deduplication, as iterating a JS `Set` built from the
list yields. -/
def dedupFirst (l : List ℚ) : List ℚ :=
  l.foldl (fun acc a => if a ∈ acc then acc else acc ++ [a]) []

/-- Stable insertion by absolute value (new element goes after equal keys). -/
def insertByAbs (a : ℚ) : List ℚ → List ℚ
  | [] => [a]
  | b :: bs => if |b| ≤ |a| then b :: insertByAbs a bs else a :: b :: bs

/-- Stable sort by absolute value, as the JS comparator
`Math.abs a - Math.abs b` under a stable sort produces. -/
def sortByAbs (l : List ℚ) : List ℚ :=
  l.foldl (fun acc x => insertByAbs x acc) []

/-- The emission loop of `emitPrismRays`: one enqueue per exit offset, in
sorted order, stopping at the first refused enqueue. -/
def emitPrismLoop (beamRadius : ℝ) (raysProcessed : ℕ) (hitPoint incoming : Vec2)
    (intensity : ℝ) (bouncesLeft : ℤ) (prismId : ℤ) :
    List ℚ → List RayWork → List RayWork
  | [], q => q
  | deg :: rest, q =>
    let rad : ℝ := (deg : ℚ) * Real.pi / 180
    let outDir := normalize (rotate incoming rad)
    let start := add hitPoint (mul outDir (EPS + beamRadius))
    match enqueueRay raysProcessed q
      ⟨start, outDir, intensity, bouncesLeft, EPS + beamRadius * 0.75, prismId⟩ with
    | (true, q2) => emitPrismLoop beamRadius raysProcessed hitPoint incoming
        intensity bouncesLeft prismId rest q2
    | (false, q2) => q2

/-- `emitPrismRays` from `stepSim`: look up the prism, normalize its exit
list (filter to the allowed set, first-occurrence dedup, stable sort by
absolute value, default `[45, -45]`), then enqueue one child per exit. -/
def emitPrismRays (features : List BoardFeature) (beamRadius : ℝ)
    (raysProcessed : ℕ) (queue : List RayWork) (prismId : ℤ)
    (hitPoint incoming : Vec2) (intensity : ℝ) (bouncesLeft : ℤ) : List RayWork :=
  let prism := features.find? (fun f =>
    match f with
    | BoardFeature.prism i _ _ _ _ _ => i == prismId
    | _ => false)
  let exitsRaw : List ℚ := match prism with
    | some (BoardFeature.prism _ _ _ _ es _) => if es ≠ [] then es else [45, -45]
    | _ => [45, -45]
  let exits := sortByAbs (dedupFirst (exitsRaw.filter (fun x => x ∈ allowedExits)))
  emitPrismLoop beamRadius raysProcessed hitPoint incoming intensity bouncesLeft
    prismId exits queue

/-- Continuation of a work item after processing one hit. -/
inductive TraceOutcome where
  | cont (o d : Vec2) (intensity : ℝ) (bouncesLeft : ℤ) (minT : ℝ) : TraceOutcome
  | stop : TraceOutcome

/-- Intensity projection of an outcome. -/
def outcomeIntensity : TraceOutcome → Option ℝ
  | TraceOutcome.cont _ _ i _ _ => some i
  | TraceOutcome.stop => none

/-- The hit dispatch shared by the straight tracing loop and the curved
integrator: blocks and mirrors reflect with intensity decay and a bounce
budget decrement, walls may skip both under the `noWallPenalty` stat, prisms
terminate the item after enqueueing their children, and a gravity-well core
absorbs.  The damage callback fired on block hits only mutates host state,
which the scene oracle reflects. -/
def dispatchHit (stats : RunStats) (features : List BoardFeature) (beamRadius : ℝ)
    (raysProcessed : ℕ) (queue : List RayWork) (d : Vec2) (intensity : ℝ)
    (bouncesLeft : ℤ) (hit : SceneHit) : TraceOutcome × List RayWork :=
  match hit.kind with
  | SceneKind.block =>
    if bouncesLeft ≤ 0 then (TraceOutcome.stop, queue)
    else
      let d2 := normalize (reflect d hit.normal)
      (TraceOutcome.cont (add hit.point (mul d2 (EPS + beamRadius))) d2
        (intensity * stats.bounceFalloff) (bouncesLeft - 1)
        (EPS + beamRadius * 0.75), queue)
  | SceneKind.mirror | SceneKind.wall =>
    let skipPenalty := hit.kind = SceneKind.wall ∧ stats.noWallPenalty = true
    if ¬ skipPenalty ∧ bouncesLeft ≤ 0 then (TraceOutcome.stop, queue)
    else
      let d2 := normalize (reflect d hit.normal)
      let i2 := if skipPenalty then intensity else intensity * stats.bounceFalloff
      let b2 := if skipPenalty then bouncesLeft else bouncesLeft - 1
      (TraceOutcome.cont (add hit.point (mul d2 (EPS + beamRadius))) d2 i2 b2
        (EPS + beamRadius * 0.75), queue)
  | SceneKind.prism =>
    (TraceOutcome.stop, emitPrismRays features beamRadius raysProcessed queue
      hit.id hit.point d intensity bouncesLeft)
  | SceneKind.blackHole => (TraceOutcome.stop, queue)

/-- Scene queries abstracted by call order (see the section comment). -/
structure SceneOracle where
  query : ℕ → Vec2 → Vec2 → ℝ → ℝ → Option ℤ → Option SceneHit

/-- Per-step turning contribution summed over all influencing holes (the
inner hole loop of the curved integrator): strength ramps by a cubic ease
from a non-zero baseline at the boundary, signed by the lateral component of
the direction toward the hole; the flag records whether any influence field
contains the point. -/
def turnSumAt (holes : List HoleInfo) (perp o : Vec2) : ℝ × Bool :=
  holes.foldl (fun acc h =>
    if h.maxY < 0 then acc
    else
      let dx := h.c.x - o.x
      let dy := h.c.y - o.y
      let dist := len ⟨dx, dy⟩
      if dist < h.rInf then
        let t := 1 - dist / h.rInf
        let minStrength : ℝ := 0.28
        let strength := minStrength + (1 - minStrength) * t
        let w := strength * strength * strength
        let inv := if dist > 1e-3 then 1 / dist else 0
        let lateral := dot perp ⟨dx * inv, dy * inv⟩
        (acc.1 + lateral * w, true)
      else acc) ((0 : ℝ), false)

/-- Result of the curved integrator. -/
structure CurveRes where
  o : Vec2
  d : Vec2
  intensity : ℝ
  bouncesLeft : ℤ
  minT : ℝ
  segments : List Seg
  queue : List RayWork
  calls : ℕ
  steps : ℕ

/-- The curved-path integrator (inner `for step` loop of `stepSim`): per
step, sum the turning contribution of every influencing hole, bend the
heading, run a short-range scene query capped to the step length, and
dispatch any hit; exit once outside all influence fields.  `steps` counts
executed iterations (instrumentation only). -/
def curveLoop (orc : SceneOracle) (stats : RunStats) (features : List BoardFeature)
    (holes : List HoleInfo) (beamRadius : ℝ) (ign : ℤ) :
    ℕ → Vec2 → Vec2 → ℝ → ℤ → ℝ → ℕ → List Seg → List RayWork → ℕ → CurveRes
  | 0, o, d, i, bl, minT, _, segs, q, calls => ⟨o, d, i, bl, minT, segs, q, calls, 0⟩
  | fuel + 1, o, d, i, bl, minT, rp, segs, q, calls =>
    if segs.length ≥ MAX_SEGMENTS then ⟨o, d, i, bl, minT, segs, q, calls, 0⟩
    else
      let stepLen : ℝ := 6
      let perp := normalize ⟨-d.y, d.x⟩
      let turn := turnSumAt holes perp o
      if turn.2 = false then ⟨o, d, i, bl, 0, segs, q, calls, 1⟩
      else
        let bendK : ℝ := 0.042
        let d2 := normalize (add d (mul perp (bendK * turn.1 * stepLen)))
        match orc.query calls o d2 stepLen 0.25 (if ign ≥ 0 then some ign else none) with
        | none =>
          let next := add o (mul d2 stepLen)
          match tryAddSeg segs o next i with
          | (false, segs2) => ⟨o, d2, i, bl, minT, segs2, q, calls + 1, 1⟩
          | (true, segs2) =>
            let r := curveLoop orc stats features holes beamRadius ign fuel next d2
              i bl 0 rp segs2 q (calls + 1)
            ⟨r.o, r.d, r.intensity, r.bouncesLeft, r.minT, r.segments, r.queue,
              r.calls, r.steps + 1⟩
        | some sh =>
          match tryAddSeg segs o sh.point i with
          | (false, segs2) => ⟨o, d2, i, bl, minT, segs2, q, calls + 1, 1⟩
          | (true, segs2) =>
            match dispatchHit stats features beamRadius rp q d2 i bl sh with
            | (TraceOutcome.stop, q2) => ⟨o, d2, i, bl, minT, segs2, q2, calls + 1, 1⟩
            | (TraceOutcome.cont o2 d3 i2 bl2 minT2, q2) =>
              let r := curveLoop orc stats features holes beamRadius ign fuel o2 d3
                i2 bl2 minT2 rp segs2 q2 (calls + 1)
              ⟨r.o, r.d, r.intensity, r.bouncesLeft, r.minT, r.segments, r.queue,
                r.calls, r.steps + 1⟩

/-- Result of tracing one work item. -/
structure GuardRes where
  segments : List Seg
  queue : List RayWork
  calls : ℕ
  iters : ℕ

/-- The straight tracing loop of one work item (the `for guard` loop of
`stepSim`): decide between curved integration and the straight scene query,
then dispatch.  After the curved integrator the item stops only when its
intensity has dropped to zero or below (so a prism hit inside the curve does
not terminate the item).  `iters` counts executed iterations. -/
def guardLoop (orc : SceneOracle) (stats : RunStats) (features : List BoardFeature)
    (holes : List HoleInfo) (beamRadius maxDist : ℝ) :
    ℕ → Vec2 → Vec2 → ℝ → ℤ → ℝ → ℤ → ℕ → List Seg → List RayWork → ℕ → GuardRes
  | 0, _, _, _, _, _, _, _, segs, q, calls => ⟨segs, q, calls, 0⟩
  | fuel + 1, o, d, i, bl, minT, ign, rp, segs, q, calls =>
    if segs.length ≥ MAX_SEGMENTS then ⟨segs, q, calls, 0⟩
    else
      let enterT := computeEnterT holes beamRadius maxDist o d minT
      let hit := orc.query calls o d maxDist minT (if ign ≥ 0 then some ign else none)
      let calls2 := calls + 1
      let enterDecision : Option ℝ := match enterT, hit with
        | some et, none => some et
        | some et, some h => if et < h.t - 0.6 then some et else none
        | none, _ => none
      match enterDecision with
      | some et =>
        let entry := if et ≤ 0 then o else add o (mul d et)
        match (if et > 0 then tryAddSeg segs o entry i else (true, segs)) with
        | (false, segs1) => ⟨segs1, q, calls2, 1⟩
        | (true, segs1) =>
          let entryInside := add entry (mul d 0.75)
          match tryAddSeg segs1 entry entryInside i with
          | (false, segs2) => ⟨segs2, q, calls2, 1⟩
          | (true, segs2) =>
            let cres := curveLoop orc stats features holes beamRadius ign
              MAX_CURVE_STEPS entryInside d i bl minT rp segs2 q calls2
            if cres.intensity ≤ 0 then ⟨cres.segments, cres.queue, cres.calls, 1⟩
            else
              let r := guardLoop orc stats features holes beamRadius maxDist fuel
                cres.o cres.d cres.intensity cres.bouncesLeft 0 ign rp
                cres.segments cres.queue cres.calls
              ⟨r.segments, r.queue, r.calls, r.iters + 1⟩
      | none =>
        match hit with
        | none =>
          ⟨(tryAddSeg segs o (add o (mul d maxDist)) i).2, q, calls2, 1⟩
        | some h =>
          match tryAddSeg segs o h.point i with
          | (false, segs2) => ⟨segs2, q, calls2, 1⟩
          | (true, segs2) =>
            match dispatchHit stats features beamRadius rp q d i bl h with
            | (TraceOutcome.stop, q2) => ⟨segs2, q2, calls2, 1⟩
            | (TraceOutcome.cont o2 d2 i2 bl2 minT2, q2) =>
              let r := guardLoop orc stats features holes beamRadius maxDist fuel
                o2 d2 i2 bl2 minT2 ign rp segs2 q2 calls2
              ⟨r.segments, r.queue, r.calls, r.iters + 1⟩

/-- Engine state threaded through the work-queue driver. -/
structure EngState where
  queue : List RayWork
  raysProcessed : ℕ
  segments : List Seg
  calls : ℕ
  maxIters : ℕ

/-- The work-queue driver (`while` loop of `stepSim`): pop from the end of
the queue, count the item as processed, trace it.  `maxIters` records the
largest per-item iteration count seen (instrumentation only). -/
def runQueue (orc : SceneOracle) (stats : RunStats) (features : List BoardFeature)
    (holes : List HoleInfo) (beamRadius maxDist : ℝ) : ℕ → EngState → EngState
  | 0, st => st
  | fuel + 1, st =>
    if st.queue = [] ∨ st.raysProcessed ≥ MAX_RAYS ∨ st.segments.length ≥ MAX_SEGMENTS then
      st
    else
      match st.queue.getLast? with
      | none => st
      | some ray =>
        let q2 := st.queue.dropLast
        let rp2 := st.raysProcessed + 1
        let res := guardLoop orc stats features holes beamRadius maxDist 64
          ray.o (normalize ray.d) ray.intensity ray.bouncesLeft ray.minT
          ray.ignorePrismId rp2 st.segments q2 st.calls
        runQueue orc stats features holes beamRadius maxDist fuel
          ⟨res.queue, rp2, res.segments, res.calls, max st.maxIters res.iters⟩

/-- The laser phase of one `stepSim` call: segment list reset, primary work
item from the emitter, then the driver. -/
def stepSimLaser (orc : SceneOracle) (stats : RunStats)
    (features : List BoardFeature) (emitterPos aimDir : Vec2)
    (viewW viewH : ℝ) : EngState :=
  let maxDist := len ⟨viewW, viewH⟩ * 1.35
  let beamRadius := max 0 (stats.beamWidth * 0.45)
  let holes := holeInfosOf features
  runQueue orc stats features holes beamRadius maxDist MAX_RAYS
    ⟨[⟨emitterPos, aimDir, 1, stats.maxBounces, 0, -1⟩], 0, [], 0, 0⟩

/-- Per-bounce intensity update of the dispatch (penalty-free wall bounces
keep the intensity, every other continuing bounce multiplies by the
falloff). -/
def bounceIntensity (stats : RunStats) (kind : SceneKind) (i : ℝ) : ℝ :=
  if kind = SceneKind.wall ∧ stats.noWallPenalty = true then i
  else i * stats.bounceFalloff

/-- Intensities along a bounce chain: the initial intensity followed by the
value after each successive bounce. -/
def intensitySeq (stats : RunStats) : List SceneKind → ℝ → List ℝ
  | [], i0 => [i0]
  | k :: ks, i0 => i0 :: intensitySeq stats ks (bounceIntensity stats k i0)

end

lemma bounceIntensity_nonneg (stats : RunStats) (k : SceneKind) (i : ℝ)
    (hf : 0 ≤ stats.bounceFalloff) (hi : 0 ≤ i) : 0 ≤ bounceIntensity stats k i := by
  rw [bounceIntensity]
  split_ifs
  · exact hi
  · exact mul_nonneg hi hf

lemma intensitySeq_head (stats : RunStats) (ks : List SceneKind) (i0 : ℝ) :
    ∃ rest, intensitySeq stats ks i0 = i0 :: rest := by
  cases ks
  · exact ⟨[], rfl⟩
  · exact ⟨_, rfl⟩

lemma bounceIntensity_le (stats : RunStats) (k : SceneKind) (i : ℝ)
    (hf0 : 0 ≤ stats.bounceFalloff) (hf1 : stats.bounceFalloff ≤ 1) (hi : 0 ≤ i) :
    bounceIntensity stats k i ≤ i := by
  rw [bounceIntensity]
  split_ifs
  · exact le_refl i
  · nlinarith

lemma intensitySeq_chain (stats : RunStats)
    (hf0 : 0 ≤ stats.bounceFalloff) (hf1 : stats.bounceFalloff ≤ 1) :
    ∀ (kinds : List SceneKind) (i0 : ℝ), 0 ≤ i0 →
      List.Chain' (fun a b => b ≤ a) (intensitySeq stats kinds i0) := by
  intro kinds
  induction kinds with
  | nil =>
    intro i0 _
    rw [intensitySeq]
    exact List.chain'_singleton i0
  | cons k ks ih =>
    intro i0 h0
    rw [intensitySeq]
    obtain ⟨rest, hr⟩ := intensitySeq_head stats ks (bounceIntensity stats k i0)
    rw [hr, List.chain'_cons]
    exact ⟨bounceIntensity_le stats k i0 hf0 hf1 h0,
      hr ▸ ih (bounceIntensity stats k i0) (bounceIntensity_nonneg stats k i0 hf0 h0)⟩

/-- C3 (amended): along any bounce chain with falloff factor in [0, 1] and
nonnegative intensity, the intensity sequence is non-increasing; a
penalty-free wall bounce keeps it exactly equal; any other bounce is strictly
decreasing provided the falloff is strictly below 1 and the running intensity
is positive.  The last conjunct ties the chain model to the engine: every
continuing dispatch updates the intensity by exactly `bounceIntensity`. -/
theorem bounce_intensity_monotone :
    (∀ (stats : RunStats) (kinds : List SceneKind) (i0 : ℝ),
      0 ≤ stats.bounceFalloff → stats.bounceFalloff ≤ 1 → 0 ≤ i0 →
      List.Chain' (fun a b => b ≤ a) (intensitySeq stats kinds i0)) ∧
    (∀ (stats : RunStats) (k : SceneKind) (i : ℝ),
      0 ≤ stats.bounceFalloff → stats.bounceFalloff ≤ 1 → 0 ≤ i →
      bounceIntensity stats k i ≤ i ∧
      ((k = SceneKind.wall ∧ stats.noWallPenalty = true) → bounceIntensity stats k i = i) ∧
      (stats.bounceFalloff < 1 → 0 < i →
        ¬(k = SceneKind.wall ∧ stats.noWallPenalty = true) →
        bounceIntensity stats k i < i)) ∧
    (∀ (stats : RunStats) (features : List BoardFeature) (beamRadius : ℝ)
        (rp : ℕ) (q : List RayWork) (d : Vec2) (i : ℝ) (bl : ℤ) (hit : SceneHit)
        (o2 d2 : Vec2) (i2 : ℝ) (bl2 : ℤ) (mt2 : ℝ) (q2 : List RayWork),
      dispatchHit stats features beamRadius rp q d i bl hit =
        (TraceOutcome.cont o2 d2 i2 bl2 mt2, q2) →
      i2 = bounceIntensity stats hit.kind i) := by
  refine ⟨fun stats kinds i0 hf0 hf1 h0 => intensitySeq_chain stats hf0 hf1 kinds i0 h0,
    ?_, ?_⟩
  · intro stats k i hf0 hf1 hi
    refine ⟨bounceIntensity_le stats k i hf0 hf1 hi, ?_, ?_⟩
    · intro hp
      rw [bounceIntensity, if_pos hp]
    · intro hlt hpos hnp
      rw [bounceIntensity, if_neg hnp]
      nlinarith
  · intro stats features beamRadius rp q d i bl hit o2 d2 i2 bl2 mt2 q2 he
    rcases hk : hit.kind with _ | _ | _ | _ | _ <;>
      simp only [dispatchHit, hk] at he <;>
      (try split_ifs at he with h1 h2) <;>
      first
        | exact TraceOutcome.noConfusion (congrArg Prod.fst he)
        | (simp only [Prod.mk.injEq, TraceOutcome.cont.injEq] at he
           rw [← he.1.2.2.1, bounceIntensity]
           first
             | (split_ifs with h3 <;> simp_all)
             | (rw [if_neg (by rintro ⟨hw, _⟩; cases hw)]))

theorem bounce_intensity_monotone_witness :
    List.Chain' (fun a b => b ≤ a)
      (intensitySeq ⟨90, 4, 3, 1 / 2, 0, false⟩ [SceneKind.block] 1) ∧
    bounceIntensity ⟨90, 4, 3, 1 / 2, 0, false⟩ SceneKind.block 1 < 1 :=
  ⟨bounce_intensity_monotone.1 ⟨90, 4, 3, 1 / 2, 0, false⟩ [SceneKind.block] 1
      (by norm_num) (by norm_num) (by norm_num),
   (bounce_intensity_monotone.2.1 ⟨90, 4, 3, 1 / 2, 0, false⟩ SceneKind.block 1
      (by norm_num) (by norm_num) (by norm_num)).2.2 (by norm_num) (by norm_num)
      (by simp)⟩

/-- C3 (counterexample): with the falloff factor exactly 1 — inside the
claimed range [0, 1] — a block bounce, which is not a penalty-free wall
bounce, keeps the intensity exactly 1: the chain is not strictly decreasing
there. -/
theorem intensity_not_strict_at_falloff_one :
    outcomeIntensity
      (dispatchHit ⟨90, 4, 3, 1, 0, false⟩ [] 0 1 [] ⟨0, -1⟩ 1 1
        ⟨10, ⟨0, 0⟩, ⟨0, 1⟩, SceneKind.block, 5⟩).1 = some 1 := by
  rw [dispatchHit]
  norm_num [outcomeIntensity]

lemma tryAddSeg_le (segs : List Seg) (a b : Vec2) (i : ℝ)
    (h : segs.length ≤ MAX_SEGMENTS) :
    (tryAddSeg segs a b i).2.length ≤ MAX_SEGMENTS := by
  rw [tryAddSeg]
  split_ifs with hf
  · exact h
  · simp only [List.length_append, List.length_cons, List.length_nil]
    omega

lemma tryAddSeg_eq (segs : List Seg) (a b : Vec2) (i : ℝ) (bb : Bool) (segs2 : List Seg)
    (he : tryAddSeg segs a b i = (bb, segs2)) :
    segs2 = segs ∨ segs2 = segs ++ [⟨a, b, i⟩] := by
  rw [tryAddSeg] at he
  split_ifs at he
  · cases he
    exact Or.inl rfl
  · cases he
    exact Or.inr rfl

lemma tryAddSeg_len_le (segs : List Seg) (a b : Vec2) (i : ℝ) (bb : Bool)
    (segs2 : List Seg) (he : tryAddSeg segs a b i = (bb, segs2))
    (h : segs.length ≤ MAX_SEGMENTS) : segs2.length ≤ MAX_SEGMENTS := by
  have := tryAddSeg_le segs a b i h
  rw [he] at this
  exact this

lemma curveLoop_seg_le (orc : SceneOracle) (stats : RunStats)
    (features : List BoardFeature) (holes : List HoleInfo) (beamRadius : ℝ) (ign : ℤ) :
    ∀ (fuel : ℕ) (o d : Vec2) (i : ℝ) (bl : ℤ) (minT : ℝ) (rp : ℕ)
      (segs : List Seg) (q : List RayWork) (calls : ℕ),
      segs.length ≤ MAX_SEGMENTS →
      (curveLoop orc stats features holes beamRadius ign fuel o d i bl minT rp segs q
        calls).segments.length ≤ MAX_SEGMENTS := by
  intro fuel
  induction fuel with
  | zero =>
    intro o d i bl minT rp segs q calls h
    exact h
  | succ n ih =>
    intro o d i bl minT rp segs q calls h
    rw [curveLoop]
    by_cases h1 : segs.length ≥ MAX_SEGMENTS
    · rw [if_pos h1]
      exact h
    · rw [if_neg h1]
      dsimp only
      split
      · exact h
      · split
        · split
          next s2 heq => exact tryAddSeg_len_le _ _ _ _ _ _ heq h
          next s2 heq => exact ih _ _ _ _ _ _ _ _ _ (tryAddSeg_len_le _ _ _ _ _ _ heq h)
        · split
          next s2 heq => exact tryAddSeg_len_le _ _ _ _ _ _ heq h
          next s2 heq =>
            split
            next q2 hq2 => exact tryAddSeg_len_le _ _ _ _ _ _ heq h
            next o2 d3 i2 bl2 mT2 q2 hq2 =>
              exact ih _ _ _ _ _ _ _ _ _ (tryAddSeg_len_le _ _ _ _ _ _ heq h)

lemma curveLoop_steps_le (orc : SceneOracle) (stats : RunStats)
    (features : List BoardFeature) (holes : List HoleInfo) (beamRadius : ℝ) (ign : ℤ) :
    ∀ (fuel : ℕ) (o d : Vec2) (i : ℝ) (bl : ℤ) (minT : ℝ) (rp : ℕ)
      (segs : List Seg) (q : List RayWork) (calls : ℕ),
      (curveLoop orc stats features holes beamRadius ign fuel o d i bl minT rp segs q
        calls).steps ≤ fuel := by
  intro fuel
  induction fuel with
  | zero =>
    intro o d i bl minT rp segs q calls
    exact Nat.le_refl 0
  | succ n ih =>
    intro o d i bl minT rp segs q calls
    rw [curveLoop]
    by_cases h1 : segs.length ≥ MAX_SEGMENTS
    · rw [if_pos h1]
      exact Nat.zero_le _
    · rw [if_neg h1]
      dsimp only
      split
      · exact Nat.succ_le_succ (Nat.zero_le _)
      · split
        · split
          next s2 heq => exact Nat.succ_le_succ (Nat.zero_le _)
          next s2 heq => exact Nat.succ_le_succ (ih _ _ _ _ _ _ _ _ _)
        · split
          next s2 heq => exact Nat.succ_le_succ (Nat.zero_le _)
          next s2 heq =>
            split
            next q2 hq2 => exact Nat.succ_le_succ (Nat.zero_le _)
            next o2 d3 i2 bl2 mT2 q2 hq2 => exact Nat.succ_le_succ (ih _ _ _ _ _ _ _ _ _)

lemma preSeg_len_le (segs : List Seg) (o entry : Vec2) (i et : ℝ) (bb : Bool)
    (segs1 : List Seg)
    (heq : (if et > 0 then tryAddSeg segs o entry i else (true, segs)) = (bb, segs1))
    (h : segs.length ≤ MAX_SEGMENTS) : segs1.length ≤ MAX_SEGMENTS := by
  split_ifs at heq
  · exact tryAddSeg_len_le _ _ _ _ _ _ heq h
  · cases heq
    exact h

lemma guardLoop_seg_le (orc : SceneOracle) (stats : RunStats)
    (features : List BoardFeature) (holes : List HoleInfo) (beamRadius maxDist : ℝ) :
    ∀ (fuel : ℕ) (o d : Vec2) (i : ℝ) (bl : ℤ) (minT : ℝ) (ign : ℤ) (rp : ℕ)
      (segs : List Seg) (q : List RayWork) (calls : ℕ),
      segs.length ≤ MAX_SEGMENTS →
      (guardLoop orc stats features holes beamRadius maxDist fuel o d i bl minT ign rp
        segs q calls).segments.length ≤ MAX_SEGMENTS := by
  intro fuel
  induction fuel with
  | zero =>
    intro o d i bl minT ign rp segs q calls h
    exact h
  | succ n ih =>
    intro o d i bl minT ign rp segs q calls h
    rw [guardLoop]
    by_cases h1 : segs.length ≥ MAX_SEGMENTS
    · rw [if_pos h1]
      exact h
    · rw [if_neg h1]
      dsimp only
      split
      · -- curve-entry branch
        split
        next s1 heq => exact preSeg_len_le _ _ _ _ _ _ _ heq h
        next s1 heq =>
          split
          next s2 heq2 =>
            exact tryAddSeg_len_le _ _ _ _ _ _ heq2 (preSeg_len_le _ _ _ _ _ _ _ heq h)
          next s2 heq2 =>
            have hpre := tryAddSeg_len_le _ _ _ _ _ _ heq2
              (preSeg_len_le _ _ _ _ _ _ _ heq h)
            split_ifs <;>
              first
                | exact curveLoop_seg_le orc stats features holes beamRadius ign
                    MAX_CURVE_STEPS _ _ _ _ _ _ _ _ _ hpre
                | exact ih _ _ _ _ _ _ _ _ _ _ (curveLoop_seg_le orc stats features
                    holes beamRadius ign MAX_CURVE_STEPS _ _ _ _ _ _ _ _ _ hpre)
      · -- straight branch
        split
        · exact tryAddSeg_le _ _ _ _ h
        · split
          next s2 heq => exact tryAddSeg_len_le _ _ _ _ _ _ heq h
          next s2 heq =>
            split
            next q2 hq2 => exact tryAddSeg_len_le _ _ _ _ _ _ heq h
            next o2 d2 i2 bl2 mT2 q2 hq2 =>
              exact ih _ _ _ _ _ _ _ _ _ _ (tryAddSeg_len_le _ _ _ _ _ _ heq h)

lemma guardLoop_iters_le (orc : SceneOracle) (stats : RunStats)
    (features : List BoardFeature) (holes : List HoleInfo) (beamRadius maxDist : ℝ) :
    ∀ (fuel : ℕ) (o d : Vec2) (i : ℝ) (bl : ℤ) (minT : ℝ) (ign : ℤ) (rp : ℕ)
      (segs : List Seg) (q : List RayWork) (calls : ℕ),
      (guardLoop orc stats features holes beamRadius maxDist fuel o d i bl minT ign rp
        segs q calls).iters ≤ fuel := by
  intro fuel
  induction fuel with
  | zero =>
    intro o d i bl minT ign rp segs q calls
    exact Nat.le_refl 0
  | succ n ih =>
    intro o d i bl minT ign rp segs q calls
    rw [guardLoop]
    by_cases h1 : segs.length ≥ MAX_SEGMENTS
    · rw [if_pos h1]
      exact Nat.zero_le _
    · rw [if_neg h1]
      dsimp only
      split
      · split
        next s1 heq => exact Nat.succ_le_succ (Nat.zero_le _)
        next s1 heq =>
          split
          next s2 heq2 => exact Nat.succ_le_succ (Nat.zero_le _)
          next s2 heq2 =>
            split_ifs <;>
              first
                | exact Nat.succ_le_succ (Nat.zero_le _)
                | exact Nat.succ_le_succ (ih _ _ _ _ _ _ _ _ _ _)
      · split
        · exact Nat.succ_le_succ (Nat.zero_le _)
        · split
          next s2 heq => exact Nat.succ_le_succ (Nat.zero_le _)
          next s2 heq =>
            split
            next q2 hq2 => exact Nat.succ_le_succ (Nat.zero_le _)
            next o2 d2 i2 bl2 mT2 q2 hq2 => exact Nat.succ_le_succ (ih _ _ _ _ _ _ _ _ _ _)

lemma runQueue_rp_le (orc : SceneOracle) (stats : RunStats)
    (features : List BoardFeature) (holes : List HoleInfo) (beamRadius maxDist : ℝ) :
    ∀ (fuel : ℕ) (st : EngState), st.raysProcessed ≤ MAX_RAYS →
      (runQueue orc stats features holes beamRadius maxDist fuel st).raysProcessed ≤
        MAX_RAYS := by
  intro fuel
  induction fuel with
  | zero => exact fun st h => h
  | succ n ih =>
    intro st h
    rw [runQueue]
    split_ifs with h1
    · exact h
    · split
      · exact h
      next ray hray =>
        refine ih _ ?_
        have : ¬ st.raysProcessed ≥ MAX_RAYS := fun hge => h1 (Or.inr (Or.inl hge))
        simp only []
        omega

lemma runQueue_seg_le (orc : SceneOracle) (stats : RunStats)
    (features : List BoardFeature) (holes : List HoleInfo) (beamRadius maxDist : ℝ) :
    ∀ (fuel : ℕ) (st : EngState), st.segments.length ≤ MAX_SEGMENTS →
      (runQueue orc stats features holes beamRadius maxDist fuel st).segments.length ≤
        MAX_SEGMENTS := by
  intro fuel
  induction fuel with
  | zero => exact fun st h => h
  | succ n ih =>
    intro st h
    rw [runQueue]
    split_ifs with h1
    · exact h
    · split
      · exact h
      next ray hray =>
        exact ih _ (guardLoop_seg_le orc stats features holes beamRadius maxDist 64
          _ _ _ _ _ _ _ _ _ _ h)

lemma runQueue_iters_le (orc : SceneOracle) (stats : RunStats)
    (features : List BoardFeature) (holes : List HoleInfo) (beamRadius maxDist : ℝ) :
    ∀ (fuel : ℕ) (st : EngState), st.maxIters ≤ 64 →
      (runQueue orc stats features holes beamRadius maxDist fuel st).maxIters ≤ 64 := by
  intro fuel
  induction fuel with
  | zero => exact fun st h => h
  | succ n ih =>
    intro st h
    rw [runQueue]
    split_ifs with h1
    · exact h
    · split
      · exact h
      next ray hray =>
        refine ih _ ?_
        simp only [max_le_iff]
        exact ⟨h, guardLoop_iters_le orc stats features holes beamRadius maxDist 64
          _ _ _ _ _ _ _ _ _ _⟩

/-- C4: one laser pass terminates by construction (all loops are structurally
fuel-bounded) and obeys the global caps: at most `MAX_RAYS = 24` work items
are processed, at most `MAX_SEGMENTS = 180` segments are emitted, each
item runs the straight tracing loop at most 64 iterations and each curved
integration at most `MAX_CURVE_STEPS = 260` steps, and once a cap is
reached, `enqueueRay` and `tryAddSeg` drop the work without error, leaving
their state unchanged. -/
theorem stepSim_resource_caps :
    (∀ (orc : SceneOracle) (stats : RunStats) (features : List BoardFeature)
        (emitterPos aimDir : Vec2) (viewW viewH : ℝ),
      (stepSimLaser orc stats features emitterPos aimDir viewW viewH).raysProcessed ≤
          MAX_RAYS ∧
      (stepSimLaser orc stats features emitterPos aimDir viewW viewH).segments.length ≤
          MAX_SEGMENTS ∧
      (stepSimLaser orc stats features emitterPos aimDir viewW viewH).maxIters ≤ 64) ∧
    (∀ (rp : ℕ) (q : List RayWork) (w : RayWork), rp + q.length ≥ MAX_RAYS →
      enqueueRay rp q w = (false, q)) ∧
    (∀ (segs : List Seg) (a b : Vec2) (i : ℝ), segs.length ≥ MAX_SEGMENTS →
      tryAddSeg segs a b i = (false, segs)) ∧
    (∀ (orc : SceneOracle) (stats : RunStats) (features : List BoardFeature)
        (holes : List HoleInfo) (beamRadius : ℝ) (ign : ℤ) (o d : Vec2) (i : ℝ)
        (bl : ℤ) (minT : ℝ) (rp : ℕ) (segs : List Seg) (q : List RayWork) (calls : ℕ),
      (curveLoop orc stats features holes beamRadius ign MAX_CURVE_STEPS o d i bl minT
        rp segs q calls).steps ≤ MAX_CURVE_STEPS) := by
  refine ⟨?_, ?_, ?_, ?_⟩
  · intro orc stats features emitterPos aimDir viewW viewH
    refine ⟨?_, ?_, ?_⟩
    · exact runQueue_rp_le orc stats features _ _ _ MAX_RAYS _ (Nat.zero_le _)
    · exact runQueue_seg_le orc stats features _ _ _ MAX_RAYS _ (Nat.zero_le _)
    · exact runQueue_iters_le orc stats features _ _ _ MAX_RAYS _ (Nat.zero_le _)
  · intro rp q w hge
    rw [enqueueRay, if_pos hge]
  · intro segs a b i hge
    rw [tryAddSeg, if_pos hge]
  · intro orc stats features holes beamRadius ign o d i bl minT rp segs q calls
    exact curveLoop_steps_le orc stats features holes beamRadius ign MAX_CURVE_STEPS
      _ _ _ _ _ _ _ _ _

theorem stepSim_resource_caps_witness :
    (stepSimLaser ⟨fun _ _ _ _ _ _ => none⟩ ⟨90, 4, 0, 82 / 100, 0, false⟩ []
        ⟨180, 600⟩ ⟨0, -1⟩ 360 640).raysProcessed ≤ MAX_RAYS ∧
    enqueueRay 24 [] ⟨⟨0, 0⟩, ⟨0, -1⟩, 1, 0, 0, -1⟩ =
      (false, []) ∧
    tryAddSeg (List.replicate 180 ⟨⟨0, 0⟩, ⟨0, 1⟩, 1⟩) ⟨0, 0⟩ ⟨1, 1⟩ 1 =
      (false, List.replicate 180 ⟨⟨0, 0⟩, ⟨0, 1⟩, 1⟩) :=
  ⟨(stepSim_resource_caps.1 ⟨fun _ _ _ _ _ _ => none⟩ ⟨90, 4, 0, 82 / 100, 0, false⟩ []
      ⟨180, 600⟩ ⟨0, -1⟩ 360 640).1,
   stepSim_resource_caps.2.1 24 [] ⟨⟨0, 0⟩, ⟨0, -1⟩, 1, 0, 0, -1⟩ (by norm_num [MAX_RAYS]),
   stepSim_resource_caps.2.2.1 (List.replicate 180 ⟨⟨0, 0⟩, ⟨0, 1⟩, 1⟩) ⟨0, 0⟩ ⟨1, 1⟩ 1
     (by rw [List.length_replicate]; norm_num [MAX_SEGMENTS])⟩

lemma rotate_dot (v : Vec2) (rad : ℝ) :
    dot (rotate v rad) (rotate v rad) = dot v v := by
  simp only [rotate, dot]
  have h := Real.sin_sq_add_cos_sq rad
  nlinarith [h]

lemma normalize_rotate_unit (v : Vec2) (rad : ℝ) (h : dot v v = 1) :
    normalize (rotate v rad) = rotate v rad :=
  normalize_of_unit _ (by rw [rotate_dot, h])

lemma dedupFirst_aux :
    ∀ (l acc : List ℚ), l.Nodup → (∀ x ∈ l, x ∉ acc) →
      l.foldl (fun acc a => if a ∈ acc then acc else acc ++ [a]) acc = acc ++ l := by
  intro l
  induction l with
  | nil => intro acc _ _; simp
  | cons a as ih =>
    intro acc hnd hdisj
    rw [List.foldl_cons, if_neg (hdisj a (List.mem_cons_self a as))]
    rw [ih (acc ++ [a]) (List.nodup_cons.mp hnd).2 ?_]
    · simp
    · intro x hx
      simp only [List.mem_append, List.mem_singleton]
      rintro (hacc | rfl)
      · exact hdisj x (List.mem_cons_of_mem a hx) hacc
      · exact (List.nodup_cons.mp hnd).1 hx

lemma dedupFirst_nodup (l : List ℚ) (h : l.Nodup) : dedupFirst l = l := by
  rw [dedupFirst, dedupFirst_aux l [] h (by simp)]
  simp

lemma insertByAbs_perm (a : ℚ) : ∀ (l : List ℚ), (insertByAbs a l).Perm (a :: l) := by
  intro l
  induction l with
  | nil => exact List.Perm.refl _
  | cons b bs ih =>
    rw [insertByAbs]
    split_ifs
    · exact (ih.cons b).trans (List.Perm.swap a b bs)
    · exact List.Perm.refl _

lemma sortByAbs_fold_perm :
    ∀ (l acc : List ℚ),
      (l.foldl (fun acc x => insertByAbs x acc) acc).Perm (acc ++ l) := by
  intro l
  induction l with
  | nil => intro acc; simp
  | cons a as ih =>
    intro acc
    rw [List.foldl_cons]
    refine (ih (insertByAbs a acc)).trans ?_
    refine (List.Perm.append_right as (insertByAbs_perm a acc)).trans ?_
    exact List.perm_middle.symm

lemma sortByAbs_perm (l : List ℚ) : (sortByAbs l).Perm l := by
  rw [sortByAbs]
  simpa using sortByAbs_fold_perm l []

lemma emitPrismLoop_eq (beamRadius : ℝ) (rp : ℕ) (hitPoint incoming : Vec2)
    (intensity : ℝ) (bouncesLeft : ℤ) (prismId : ℤ) (hunit : dot incoming incoming = 1) :
    ∀ (exits : List ℚ) (q : List RayWork), rp + q.length + exits.length ≤ MAX_RAYS →
      emitPrismLoop beamRadius rp hitPoint incoming intensity bouncesLeft prismId
        exits q =
      q ++ exits.map (fun deg =>
        ⟨add hitPoint (mul (rotate incoming ((deg : ℝ) * Real.pi / 180))
            (EPS + beamRadius)),
         rotate incoming ((deg : ℝ) * Real.pi / 180), intensity, bouncesLeft,
         EPS + beamRadius * 0.75, prismId⟩) := by
  intro exits
  induction exits with
  | nil => intro q _; simp [emitPrismLoop]
  | cons deg rest ih =>
    intro q hcap
    rw [emitPrismLoop]
    try dsimp only
    rw [normalize_rotate_unit incoming _ hunit]
    rw [enqueueRay, if_neg (by simp only [List.length_cons] at hcap; omega)]
    try dsimp only
    rw [ih (q ++ [_]) (by simp only [List.length_append, List.length_cons,
      List.length_nil] at hcap ⊢; omega)]
    simp

/-- C1 (amended): a prism hit dispatched in the straight tracing path, whose
configured exit list holds 2 to 4 distinct offsets from the allowed set and
with enough room under the per-tick work-item cap, terminates the current
work item and enqueues exactly one child per configured exit offset (in
stable order of increasing absolute value — a permutation of the configured
list), each child directed along the incoming direction rotated by its
offset, carrying the parent intensity and bounce budget unchanged and the
prism id as its ignore id.  (A prism hit inside the curved integrator
enqueues the same children but does not terminate the item — see the
counterexample.) -/
theorem dispatch_prism_split (stats : RunStats) (features : List BoardFeature)
    (beamRadius : ℝ) (rp : ℕ) (queue : List RayWork) (d : Vec2) (i : ℝ) (bl : ℤ)
    (hit : SceneHit) (pos : Vec2) (cs r : ℝ) (es : List ℚ) (aabb : Aabb)
    (hk : hit.kind = SceneKind.prism)
    (hfind : features.find? (fun f =>
      match f with
      | BoardFeature.prism j _ _ _ _ _ => j == hit.id
      | _ => false) = some (BoardFeature.prism hit.id pos cs r es aabb))
    (hne : es ≠ [])
    (hnd : es.Nodup)
    (hall : ∀ x ∈ es, x ∈ allowedExits)
    (hlen2 : 2 ≤ es.length) (hlen4 : es.length ≤ 4)
    (hcap : rp + queue.length + es.length ≤ MAX_RAYS)
    (hunit : dot d d = 1) :
    dispatchHit stats features beamRadius rp queue d i bl hit =
      (TraceOutcome.stop,
        queue ++ (sortByAbs es).map (fun deg =>
          ⟨add hit.point (mul (rotate d ((deg : ℝ) * Real.pi / 180))
              (EPS + beamRadius)),
           rotate d ((deg : ℝ) * Real.pi / 180), i, bl,
           EPS + beamRadius * 0.75, hit.id⟩)) ∧
    (sortByAbs es).Perm es ∧ (sortByAbs es).length = es.length := by
  have hperm := sortByAbs_perm es
  refine ⟨?_, hperm, hperm.length_eq⟩
  simp only [dispatchHit, hk]
  rw [emitPrismRays]
  try dsimp only
  rw [hfind]
  try dsimp only
  rw [if_pos hne]
  rw [List.filter_eq_self.mpr (fun a ha => by
    simpa using hall a ha)]
  rw [dedupFirst_nodup es hnd]
  rw [emitPrismLoop_eq beamRadius rp hit.point d i bl hit.id hunit (sortByAbs es)
    queue (by rw [hperm.length_eq]; exact hcap)]

noncomputable section
open Classical

/-- Concrete stat bundle used by the C1 scenarios (beam width 0, falloff
0.82, wall penalty on). -/
def statsA : RunStats := ⟨90, 0, 3, 82 / 100, 0, false⟩

/-- Concrete feature list holding one prism with exits `[90, -90]`. -/
def featuresA : List BoardFeature :=
  [BoardFeature.prism 7 ⟨-20, -30⟩ 40 18 [90, -90] ⟨0, 0, 40, 40⟩]

/-- Concrete prism hit used by the C1 scenarios. -/
def prismHitA : SceneHit := ⟨1, ⟨0, -9.75⟩, ⟨0, 1⟩, SceneKind.prism, 7⟩

end

theorem dispatch_prism_split_witness :
    dispatchHit statsA featuresA 0 1 [] ⟨0, -1⟩ 1 3 prismHitA =
      (TraceOutcome.stop,
        [] ++ (sortByAbs [90, -90]).map (fun deg =>
          ⟨add prismHitA.point
              (mul (rotate ⟨0, -1⟩ ((deg : ℝ) * Real.pi / 180)) (EPS + 0)),
           rotate ⟨0, -1⟩ ((deg : ℝ) * Real.pi / 180), 1, 3, EPS + 0 * 0.75,
           prismHitA.id⟩)) ∧
    (sortByAbs [90, -90]).Perm [90, -90] ∧
    (sortByAbs [90, -90]).length = ([90, -90] : List ℚ).length :=
  dispatch_prism_split statsA featuresA 0 1 [] ⟨0, -1⟩ 1 3 prismHitA ⟨-20, -30⟩ 40 18
    [90, -90] ⟨0, 0, 40, 40⟩ rfl rfl (by simp) (by norm_num) (by decide)
    (by norm_num) (by norm_num) (by norm_num [MAX_RAYS]) (by norm_num [dot])

noncomputable section
open Classical

/-- Concrete gravity-well absorber hit consumed after the curve-mode prism
split in the C1 counterexample. -/
def bhHitA : SceneHit := ⟨0.5, ⟨0, -9.25⟩, ⟨0, 1⟩, SceneKind.blackHole, 9⟩

/-- Concrete scene oracle of the C1 counterexample: the first straight query
sees nothing, the curve-step query hits the prism, the post-split straight
query hits the absorber. -/
def orcA : SceneOracle :=
  ⟨fun n _ _ _ _ _ =>
    if n = 1 then some prismHitA else if n = 2 then some bhHitA else none⟩

/-- One gravity well centred at `(0, -10)` with influence radius 2, on the
beam's straight path. -/
def holesA : List HoleInfo := [⟨1, ⟨0, -10⟩, 1 / 2, 2, 1⟩]

end

lemma norm10 : normalize (⟨1, 0⟩ : Vec2) = ⟨1, 0⟩ :=
  normalize_of_unit _ (by norm_num [dot])

lemma rot90_down : rotate ⟨0, -1⟩ (((90 : ℚ) : ℝ) * Real.pi / 180) = ⟨1, 0⟩ := by
  rw [rotate]
  rw [show (((90 : ℚ) : ℝ) * Real.pi / 180) = Real.pi / 2 by push_cast; ring]
  rw [Real.cos_pi_div_two, Real.sin_pi_div_two]
  norm_num

lemma rotm90_down : rotate ⟨0, -1⟩ (((-90 : ℚ) : ℝ) * Real.pi / 180) = ⟨-1, 0⟩ := by
  rw [rotate]
  rw [show (((-90 : ℚ) : ℝ) * Real.pi / 180) = -(Real.pi / 2) by push_cast; ring]
  rw [Real.cos_neg, Real.sin_neg, Real.cos_pi_div_two, Real.sin_pi_div_two]
  norm_num

lemma hrc1 : rayCircleEnterT ⟨0, 0⟩ ⟨0, -1⟩ ⟨0, -10⟩ 2 = some 8 := by
  rw [rayCircleEnterT]
  norm_num [dot, sub]
  rw [show (16:ℝ) = 4^2 by norm_num, Real.sqrt_sq (by norm_num : (0:ℝ) ≤ 4)]
  norm_num

lemma hrc2 : rayCircleEnterT ⟨0, -8.75⟩ ⟨0, -1⟩ ⟨0, -10⟩ 2 = some 0 := by
  rw [rayCircleEnterT]
  norm_num [dot, sub]

lemma hlen125 : len ⟨0, (-(5 / 4) : ℝ)⟩ = 5 / 4 := by
  rw [len]
  try dsimp only
  rw [show ((0:ℝ) ^ 2 + (-(5 / 4):ℝ) ^ 2) = (5 / 4) ^ 2 by norm_num]
  exact Real.sqrt_sq (by norm_num)

lemma hturnA : turnSumAt holesA ⟨1, 0⟩ ⟨0, -8.75⟩ = (0, true) := by
  rw [turnSumAt, holesA]
  simp only [List.foldl_cons, List.foldl_nil]
  try dsimp only
  norm_num [hlen125, dot]

lemma hce1 : computeEnterT holesA 0 100 ⟨0, 0⟩ ⟨0, -1⟩ 0 = some 8 := by
  rw [computeEnterT, holesA]
  dsimp only
  rw [if_pos (by norm_num : (0:ℝ) ≤ 0.01)]
  simp only [List.foldl_cons, List.foldl_nil]
  rw [if_neg (by norm_num : ¬ ((1:ℝ) < 0)), if_pos trivial, hrc1]
  norm_num

lemma hce2 : computeEnterT holesA 0 100 ⟨0, -8.75⟩ ⟨0, -1⟩ 0 = some 0 := by
  rw [computeEnterT, holesA]
  dsimp only
  rw [if_pos (by norm_num : (0:ℝ) ≤ 0.01)]
  simp only [List.foldl_cons, List.foldl_nil]
  rw [if_neg (by norm_num : ¬ ((1:ℝ) < 0)), if_pos trivial, hrc2]
  norm_num

lemma exitsA :
    sortByAbs (dedupFirst ((([90, -90] : List ℚ)).filter
      (fun x => x ∈ allowedExits))) = [90, -90] := by decide

noncomputable section
open Classical

/-- First prism child of the C1 counterexample run (exit offset `+90`). -/
def cA1 : RayWork := ⟨⟨1, -9.75⟩, ⟨1, 0⟩, 1, 3, 1, 7⟩

/-- Second prism child of the C1 counterexample run (exit offset `-90`). -/
def cA2 : RayWork := ⟨⟨-1, -9.75⟩, ⟨-1, 0⟩, 1, 3, 1, 7⟩

end

lemma hdispatchP :
    dispatchHit statsA featuresA 0 1 [] ⟨0, -1⟩ 1 3 prismHitA =
      (TraceOutcome.stop, [cA1, cA2]) := by
  have hfindA : featuresA.find? (fun f =>
      match f with
      | BoardFeature.prism j _ _ _ _ _ => j == (7 : ℤ)
      | _ => false) = some (BoardFeature.prism 7 ⟨-20, -30⟩ 40 18 [90, -90]
        ⟨0, 0, 40, 40⟩) := rfl
  simp only [dispatchHit, prismHitA]
  rw [emitPrismRays]
  try dsimp only
  rw [hfindA]
  try dsimp only
  rw [if_pos (by decide : ([90, -90] : List ℚ) ≠ [])]
  rw [exitsA]
  rw [emitPrismLoop_eq 0 1 ⟨0, -9.75⟩ ⟨0, -1⟩ 1 3 7 (by norm_num [dot]) [90, -90]
    [] (by norm_num [MAX_RAYS])]
  simp only [List.map_cons, List.map_nil, List.nil_append]
  rw [rot90_down, rotm90_down]
  simp only [cA1, cA2, Prod.mk.injEq, List.cons.injEq, RayWork.mk.injEq, EPS]
  norm_num [add, mul]

noncomputable section
open Classical

/-- Straight approach segment of the C1 counterexample run. -/
def sA1 : Seg := ⟨⟨0, 0⟩, ⟨0, -8⟩, 1⟩

/-- Influence-entry stub segment of the C1 counterexample run. -/
def sA2 : Seg := ⟨⟨0, -8⟩, ⟨0, -8.75⟩, 1⟩

/-- Curve-step segment ending at the prism surface. -/
def sA3 : Seg := ⟨⟨0, -8.75⟩, ⟨0, -9.75⟩, 1⟩

/-- Post-split segment: emitted by the SAME work item after its prism hit. -/
def sA4 : Seg := ⟨⟨0, -8.75⟩, ⟨0, -9.25⟩, 1⟩

end

lemma hcurveA :
    curveLoop orcA statsA featuresA holesA 0 (-1) MAX_CURVE_STEPS ⟨0, -8.75⟩
      ⟨0, -1⟩ 1 3 0 1 [sA1, sA2] [] 1 =
    ⟨⟨0, -8.75⟩, ⟨0, -1⟩, 1, 3, 0, [sA1, sA2, sA3], [cA1, cA2], 2, 1⟩ := by
  rw [show MAX_CURVE_STEPS = 259 + 1 from rfl, curveLoop]
  rw [if_neg (by norm_num [MAX_SEGMENTS] :
    ¬ ([sA1, sA2] : List Seg).length ≥ MAX_SEGMENTS)]
  try dsimp only
  rw [show (⟨-(-1 : ℝ), 0⟩ : Vec2) = ⟨1, 0⟩ by norm_num]
  rw [norm10, hturnA]
  try dsimp only
  rw [if_neg (by decide : ¬ (true = false))]
  rw [show (add ⟨0, -1⟩ (mul ⟨1, 0⟩ ((0.042 : ℝ) * 0 * 6)) : Vec2) = ⟨0, -1⟩ by
    norm_num [add, mul]]
  rw [normalize_down]
  rw [orcA]
  try dsimp only
  rw [if_pos rfl]
  try dsimp only
  rw [tryAddSeg, if_neg (by norm_num [MAX_SEGMENTS] :
    ¬ ([sA1, sA2] : List Seg).length ≥ MAX_SEGMENTS)]
  try dsimp only
  rw [hdispatchP]
  rfl

lemma hq0A : ∀ (o d : Vec2) (md mt : ℝ) (ig : Option ℤ),
    orcA.query 0 o d md mt ig = none := fun _ _ _ _ _ => rfl

lemma hq2A : ∀ (o d : Vec2) (md mt : ℝ) (ig : Option ℤ),
    orcA.query 2 o d md mt ig = some bhHitA := fun _ _ _ _ _ => rfl

lemma hg2A :
    guardLoop orcA statsA featuresA holesA 0 100 63 ⟨0, -8.75⟩ ⟨0, -1⟩ 1 3 0 (-1)
      1 [sA1, sA2, sA3] [cA1, cA2] 2 =
    ⟨[sA1, sA2, sA3, sA4], [cA1, cA2], 3, 1⟩ := by
  rw [show (63 : ℕ) = 62 + 1 from rfl, guardLoop]
  rw [if_neg (by norm_num [MAX_SEGMENTS] :
    ¬ ([sA1, sA2, sA3] : List Seg).length ≥ MAX_SEGMENTS)]
  try dsimp only
  rw [hce2, hq2A]
  try dsimp only
  rw [if_neg (by norm_num [bhHitA] : ¬ ((0:ℝ) < bhHitA.t - 0.6))]
  try dsimp only
  rw [tryAddSeg, if_neg (by norm_num [MAX_SEGMENTS] :
    ¬ ([sA1, sA2, sA3] : List Seg).length ≥ MAX_SEGMENTS)]
  try dsimp only
  rfl

/-- C1 counterexample: a concrete two-iteration trace of one work item.  The
beam enters a gravity well's influence, the curved integrator hits a prism
(scene call 1), and the prism's two children are enqueued (`cA1`, `cA2`) —
yet the SAME work item keeps tracing: the guard loop runs a second iteration
(`iters = 2`), issues another scene query (call 2) and emits a further
segment `sA4` beyond the prism before a gravity-well core finally absorbs
it.  This refutes the unqualified claim that a prism hit terminates the
current work item. -/
theorem curve_prism_split_continues_item :
    guardLoop orcA statsA featuresA holesA 0 100 64 ⟨0, 0⟩ ⟨0, -1⟩ 1 3 0 (-1) 1
      [] [] 0 = ⟨[sA1, sA2, sA3, sA4], [cA1, cA2], 3, 2⟩ := by
  rw [show (64 : ℕ) = 63 + 1 from rfl, guardLoop]
  rw [if_neg (by norm_num [MAX_SEGMENTS] :
    ¬ ([] : List Seg).length ≥ MAX_SEGMENTS)]
  try dsimp only
  rw [hce1, hq0A]
  try dsimp only
  rw [if_neg (by norm_num : ¬ ((8:ℝ) ≤ 0))]
  rw [show (add ⟨0, 0⟩ (mul ⟨0, -1⟩ (8:ℝ)) : Vec2) = ⟨0, -8⟩ by
    norm_num [add, mul]]
  rw [if_pos (by norm_num : (8:ℝ) > 0)]
  rw [tryAddSeg, if_neg (by norm_num [MAX_SEGMENTS] :
    ¬ ([] : List Seg).length ≥ MAX_SEGMENTS)]
  try dsimp only
  rw [show (add ⟨0, -8⟩ (mul ⟨0, -1⟩ (0.75:ℝ)) : Vec2) = ⟨0, -8.75⟩ by
    norm_num [add, mul]]
  rw [show (⟨⟨0, 0⟩, ⟨0, -8⟩, 1⟩ : Seg) = sA1 from rfl]
  rw [tryAddSeg, if_neg (by norm_num [MAX_SEGMENTS] :
    ¬ (([] ++ [sA1] : List Seg)).length ≥ MAX_SEGMENTS)]
  try dsimp only
  rw [show (⟨⟨0, -8⟩, ⟨0, -8.75⟩, 1⟩ : Seg) = sA2 from rfl]
  simp only [List.nil_append, List.singleton_append]
  rw [hcurveA]
  try dsimp only
  rw [if_neg (by norm_num : ¬ ((1:ℝ) ≤ 0))]
  rw [hg2A]

lemma sqrt64 : Real.sqrt 64 = 8 := by
  rw [show (64:ℝ) = 8 ^ 2 by norm_num]
  exact Real.sqrt_sq (by norm_num)

lemma hrcirBm : rayCircle ⟨-3, 4.5⟩ ⟨0, -1⟩ ⟨0, 0⟩ 5 = [1 / 2, 17 / 2] := by
  rw [rayCircle]
  norm_num [dot, sub, sqrt64, sortByLe, insertByLe]

lemma hrcirBp : rayCircle ⟨3, 4.5⟩ ⟨0, -1⟩ ⟨0, 0⟩ 5 = [1 / 2, 17 / 2] := by
  rw [rayCircle]
  norm_num [dot, sub, sqrt64, sortByLe, insertByLe]

lemma hScc0 :
    raycastSceneCircles ⟨0, 4.5⟩ ⟨0, -1⟩ [⟨SceneKind.prism, 7, ⟨0, 0⟩, 5, 20⟩]
      100 0 none = none := by
  rw [raycastSceneCircles, normalize_down]
  simp only [List.foldl_cons, List.foldl_nil]
  exact considerCircle_skip _ _ _ _ _ _ _ rfl (by norm_num [dot, sub])

lemma hSccm :
    raycastSceneCircles ⟨-3, 4.5⟩ ⟨0, -1⟩ [⟨SceneKind.prism, 7, ⟨0, 0⟩, 5, 20⟩]
      100 0 none =
    some ⟨1 / 2, ⟨-3, 4⟩, normalize ⟨-3, 4⟩, SceneKind.prism, 7⟩ := by
  rw [raycastSceneCircles, normalize_down]
  simp only [List.foldl_cons, List.foldl_nil]
  rw [considerCircle]
  try dsimp only
  rw [if_neg (by norm_num : ¬ ((20:ℝ) < 0))]
  rw [if_neg (by rintro ⟨-, i, hi, -⟩; exact Option.noConfusion hi)]
  rw [if_neg (by rintro ⟨-, hin⟩; norm_num [dot, sub] at hin)]
  rw [hrcirBm, firstHitT]
  rw [if_neg (by norm_num : ¬ ((1:ℝ) / 2 < 0)),
    if_neg (by norm_num : ¬ ((1:ℝ) / 2 > 100))]
  try dsimp only
  rw [show add ⟨-3, 4.5⟩ (mul ⟨0, -1⟩ ((1:ℝ) / 2)) = (⟨-3, 4⟩ : Vec2) by
    norm_num [add, mul]]
  rw [show sub (⟨-3, 4⟩ : Vec2) ⟨0, 0⟩ = ⟨-3, 4⟩ by norm_num [sub]]

lemma hSccp :
    raycastSceneCircles ⟨3, 4.5⟩ ⟨0, -1⟩ [⟨SceneKind.prism, 7, ⟨0, 0⟩, 5, 20⟩]
      100 0 none =
    some ⟨1 / 2, ⟨3, 4⟩, normalize ⟨3, 4⟩, SceneKind.prism, 7⟩ := by
  rw [raycastSceneCircles, normalize_down]
  simp only [List.foldl_cons, List.foldl_nil]
  rw [considerCircle]
  try dsimp only
  rw [if_neg (by norm_num : ¬ ((20:ℝ) < 0))]
  rw [if_neg (by rintro ⟨-, i, hi, -⟩; exact Option.noConfusion hi)]
  rw [if_neg (by rintro ⟨-, hin⟩; norm_num [dot, sub] at hin)]
  rw [hrcirBp, firstHitT]
  rw [if_neg (by norm_num : ¬ ((1:ℝ) / 2 < 0)),
    if_neg (by norm_num : ¬ ((1:ℝ) / 2 > 100))]
  try dsimp only
  rw [show add ⟨3, 4.5⟩ (mul ⟨0, -1⟩ ((1:ℝ) / 2)) = (⟨3, 4⟩ : Vec2) by
    norm_num [add, mul]]
  rw [show sub (⟨3, 4⟩ : Vec2) ⟨0, 0⟩ = ⟨3, 4⟩ by norm_num [sub]]

lemma thickB :
    raycastSceneThick ⟨0, 4.5⟩ ⟨0, -1⟩ []
      [BoardFeature.prism 7 ⟨-20, -20⟩ 40 5 [45, -45] ⟨0, 0, 40, 40⟩]
      100 3 0 none none =
    some ⟨1 / 2, ⟨-3, 4⟩, normalize ⟨-3, 4⟩, SceneKind.prism, 7⟩ := by
  rw [raycastSceneThick]
  try dsimp only
  rw [normalize_down]
  try dsimp only
  rw [show (⟨-(-1 : ℝ), 0⟩ : Vec2) = ⟨1, 0⟩ by norm_num]
  rw [norm10]
  simp only [List.map_nil, List.filterMap_cons, List.filterMap_nil,
    List.nil_append, List.append_nil]
  try dsimp only
  rw [if_neg (by rintro ⟨i, hi, -⟩; exact Option.noConfusion hi :
    ¬ ∃ ig, (none : Option ℤ) = some ig ∧ (7 : ℤ) = ig)]
  try dsimp only
  rw [show ((-20 : ℝ) + 40 * 0.5) = 0 by norm_num]
  rw [show ((-20 : ℝ) + 40) = 20 by norm_num]
  rw [if_neg (by norm_num : ¬ ((3:ℝ) ≤ 0.01))]
  rw [show raycastSceneAabbs ⟨0, 4.5⟩ ⟨0, -1⟩ [] 100 0 = none from rfl]
  simp only [List.foldl_cons, List.foldl_nil]
  rw [if_pos trivial]
  rw [if_neg (by norm_num : ¬ ((3:ℝ) = 0)), if_neg (by norm_num : ¬ ((-3:ℝ) = 0))]
  rw [show add ⟨0, 4.5⟩ (mul ⟨1, 0⟩ (3:ℝ)) = (⟨3, 4.5⟩ : Vec2) by
    norm_num [add, mul]]
  rw [show add ⟨0, 4.5⟩ (mul ⟨1, 0⟩ (-3:ℝ)) = (⟨-3, 4.5⟩ : Vec2) by
    norm_num [add, mul]]
  rw [show raycastScenePolys ⟨0, 4.5⟩ ⟨0, -1⟩ [] 100 0 = none from rfl]
  rw [show raycastScenePolys ⟨3, 4.5⟩ ⟨0, -1⟩ [] 100 0 = none from rfl]
  rw [show raycastScenePolys ⟨-3, 4.5⟩ ⟨0, -1⟩ [] 100 0 = none from rfl]
  rw [hScc0, hSccm, hSccp]
  simp only [pickNearestS]
  try dsimp only
  rw [if_neg (by norm_num : ¬ ((1:ℝ) / 2 < 1 / 2))]

/-- C10 (counterexample): the beam origin `(0, 4.5)` lies strictly inside
the prism's collision circle (centre `(0, 0)`, radius 5), yet the thick
sampler at beam radius 3 returns a hit on that very prism: the `-radius`
sample ray starts at the offset origin `(-3, 4.5)`, which is outside the
circle, so the inside-origin skip does not fire for it and the sample hits
the circle at `t = 1/2`.  This refutes the claim's "hence raycastSceneThick
never returns a hit on that prism". -/
theorem raycastSceneThick_offset_hits_inside_prism :
    dot (sub ⟨0, 4.5⟩ ⟨0, 0⟩) (sub ⟨0, 4.5⟩ ⟨0, 0⟩) < 5 * 5 ∧
    raycastSceneThick ⟨0, 4.5⟩ ⟨0, -1⟩ []
      [BoardFeature.prism 7 ⟨-20, -20⟩ 40 5 [45, -45] ⟨0, 0, 40, 40⟩]
      100 3 0 none none =
    some ⟨1 / 2, ⟨-3, 4⟩, normalize ⟨-3, 4⟩, SceneKind.prism, 7⟩ :=
  ⟨by norm_num [dot, sub], thickB⟩

end Lasers
